import Mathlib

/-!
Verification development for the document-similarity engine in `docsim.py`
(class `DocSim` and its threaded subclass `DocSim_threaded`).

The Python file's own logic (regex cleanup passes, stopword filtering, the
`similarity_query` control flow, `np.argsort(scores)[::-1]` ranking, the
`zip`-based result assembly and `_find_similar_terms`) is embedded directly.
The gensim components the file calls (`simple_preprocess`, `Dictionary`,
`TfidfModel`, `WordEmbeddingSimilarityIndex`, `SparseTermSimilarityMatrix`,
`SoftCosineSimilarity`) are not part of this repository; they are modelled
from the specification, as stated in their doc comments.

Conventions: tokens are `String`s, term ids are `Nat` indices into the Term
Universe list, term-similarity values are `ℚ`, term weights and soft cosine
scores are `ℝ`.
-/

namespace DocSim

/-- The hard-coded English stopword list `nltk_stop_words` from the source. -/
def nltk_stop_words : List String :=
  ["a","about","above","after","again","against","ain","all","am","an","and",
   "any","are","aren","aren't","as","at","be","because","been","before",
   "being","below","between","both","but","by","can","couldn","couldn't","d",
   "did","didn","didn't","do","does","doesn","doesn't","doing","don","don't",
   "down","during","each","few","for","from","further","had","hadn","hadn't",
   "has","hasn","hasn't","have","haven","haven't","having","he","her","here",
   "hers","herself","him","himself","his","how","i","if","in","into","is",
   "isn","isn't","it","it's","its","itself","just","ll","m","ma","me",
   "mightn","mightn't","more","most","mustn","mustn't","my","myself","needn",
   "needn't","no","nor","not","now","o","of","off","on","once","only","or",
   "other","our","ours","ourselves","out","over","own","re","s","same","shan",
   "shan't","she","she's","should","should've","shouldn","shouldn't","so",
   "some","such","t","than","that","that'll","the","their","theirs","them",
   "themselves","then","there","these","they","this","those","through","to",
   "too","under","until","up","ve","very","was","wasn","wasn't","we","were",
   "weren","weren't","what","when","where","which","while","who","whom","why",
   "will","with","won","won't","wouldn","wouldn't","y","you","you'd","you'll",
   "you're","you've","your","yours","yourself","yourselves"]

/-- Longest prefix made of characters other than the two angle brackets,
paired with the remaining suffix.  Implements the `[^<>]+` part of the
markup regexes in `preprocess`. -/
def takeNoAngle : List Char → List Char × List Char
  | [] => ([], [])
  | c :: cs =>
    if c = '<' ∨ c = '>' then ([], c :: cs)
    else
      let p := takeNoAngle cs
      (c :: p.1, p.2)

/-- Attempt to match the source regex `<img[^<>]+(>|$)` at the head of the
character list; on success return the suffix after the matched span. -/
def matchImgTag : List Char → Option (List Char)
  | '<' :: 'i' :: 'm' :: 'g' :: rest =>
    let p := takeNoAngle rest
    if p.1 = [] then none
    else
      match p.2 with
      | [] => some []
      | '>' :: r => some r
      | _ => none
  | _ => none

/-- Attempt to match the source regex `<[^<>]+(>|$)` at the head of the
character list; on success return the suffix after the matched span. -/
def matchAnyTag : List Char → Option (List Char)
  | '<' :: rest =>
    let p := takeNoAngle rest
    if p.1 = [] then none
    else
      match p.2 with
      | [] => some []
      | '>' :: r => some r
      | _ => none
  | _ => none

/-- Longest prefix made of characters other than a closing square bracket,
paired with the remaining suffix (the lazy `[^]]*?` of the img-assist
regex reaches exactly up to the first closing bracket). -/
def takeNoRBracket : List Char → List Char × List Char
  | [] => ([], [])
  | c :: cs =>
    if c = ']' then ([], c :: cs)
    else
      let p := takeNoRBracket cs
      (c :: p.1, p.2)

/-- Attempt to match the source regex `\[img_assist[^]]*?\]` at the head of
the character list; on success return the suffix after the matched span. -/
def matchImgAssist : List Char → Option (List Char)
  | '[' :: 'i' :: 'm' :: 'g' :: '_' :: 'a' :: 's' :: 's' :: 'i' :: 's' :: 't' :: rest =>
    let p := takeNoRBracket rest
    match p.2 with
    | ']' :: r => some r
    | _ => none
  | _ => none

/-- Characters admitted by the URL regex character class
`[a-zA-Z]|[0-9]|[$-_@.&+]|[!*\(\),]|%[0-9a-fA-F][0-9a-fA-F]`: note that
`$-_` is the character range 0x24–0x5F, which already contains `@ . & + * ( )
, %` and the hexadecimal digits, so the class reduces to letters, digits,
that range, and `!`. -/
def isUrlChar (c : Char) : Bool :=
  c.isAlpha || c.isDigit || ('$' ≤ c && c ≤ '_') || c = '!'

/-- Longest prefix of URL-class characters, paired with the remaining
suffix (the greedy `(...)+` of the URL regex). -/
def takeUrlRun : List Char → List Char × List Char
  | [] => ([], [])
  | c :: cs =>
    if isUrlChar c then
      let p := takeUrlRun cs
      (c :: p.1, p.2)
    else ([], c :: cs)

/-- Body of the URL match after the scheme: at least one URL-class
character, greedily. -/
def urlTail (cs : List Char) : Option (List Char) :=
  let p := takeUrlRun cs
  if p.1 = [] then none else some p.2

/-- Attempt to match the source URL regex
`http[s]?://(...)+ ` at the head of the character list; on success return
the suffix after the matched span. -/
def matchUrl : List Char → Option (List Char)
  | 'h' :: 't' :: 't' :: 'p' :: 's' :: ':' :: '/' :: '/' :: rest => urlTail rest
  | 'h' :: 't' :: 't' :: 'p' :: ':' :: '/' :: '/' :: rest => urlTail rest
  | _ => none

/-- Left-to-right scan of `re.sub`: wherever the matcher succeeds, emit the
replacement and continue after the matched span (matches do not overlap);
otherwise keep the character and move on.  The fuel argument is initialised
with the length of the list; every matcher above consumes at least one
character, so the fuel never runs out on the initialised calls. -/
def subScan (m : List Char → Option (List Char)) (repl : List Char) :
    ℕ → List Char → List Char
  | 0, cs => cs
  | _ + 1, [] => []
  | fuel + 1, c :: cs =>
    match m (c :: cs) with
    | some rest => repl ++ subScan m repl fuel rest
    | none => c :: subScan m repl fuel cs

/-- One full `re.sub` pass over a character list. -/
def applySub (m : List Char → Option (List Char)) (repl : List Char)
    (cs : List Char) : List Char :=
  subScan m repl cs.length cs

/-- A word character for tokenization.  Modelled from the spec: §4.1 step 5
(the gensim `simple_preprocess` call is not part of this repository) —
tokens are maximal alphanumeric runs; the underscore is kept inside tokens,
as required by the spec's own example in which the placeholder
`image_token` survives tokenization as a single token. -/
def isWordChar (c : Char) : Bool :=
  c.isAlphanum || c = '_'

/-- Tokenizer worker: accumulate the current run of word characters
(in reverse) and split at every non-word character. -/
def tokenizeAux : List Char → List Char → List (List Char)
  | [], acc => if acc = [] then [] else [acc.reverse]
  | c :: cs, acc =>
    if isWordChar c then tokenizeAux cs (c :: acc)
    else if acc = [] then tokenizeAux cs [] else acc.reverse :: tokenizeAux cs []

/-- Modelled from the spec: §4.1 step 5 — the call
`simple_preprocess(doc, min_len=0, max_len=float("inf"))` lowercases and
splits into maximal word-character runs, retaining tokens of any length
(no minimum or maximum length filter). -/
def simple_preprocess (cs : List Char) : List String :=
  (tokenizeAux (cs.map Char.toLower) []).map (fun l => String.mk l)

/-- The `preprocess` method of `DocSim`: the four `re.sub` passes of the
source in order (image tags to `image_token`, remaining tags stripped,
img-assist directives stripped, URLs to `url_token`), then tokenization,
then removal of stopwords. -/
def preprocess (stopwords : List String) (doc : String) : List String :=
  (simple_preprocess
    (applySub matchUrl " url_token ".toList
      (applySub matchImgAssist " ".toList
        (applySub matchAnyTag " ".toList
          (applySub matchImgTag " image_token ".toList doc.toList))))).filter
    (fun t => !(stopwords.contains t))

/-- First-seen deduplication, keeping the first occurrence of each element
in order.  Used both for the Term Universe (spec §4.2: ids in first-seen
order) and as the deterministic model of Python's `set(document)`
iteration in `_find_similar_terms`. -/
def firstSeen (l : List String) : List String :=
  l.foldl (fun acc t => if acc.contains t then acc else acc ++ [t]) []

/-- Modelled from the spec: §4.2 Term Universe — scan all sequences
(documents then the query) and record each distinct term in first-seen
order; the id of a term is its index in this list. -/
def buildDictionary (seqs : List (List String)) : List String :=
  firstSeen seqs.flatten

/-- The `token2id` lookup of the Term Universe: index of the term, or
`none` for a term never seen at build time (`UnknownTermError`). -/
def token2id : List String → String → Option ℕ
  | [], _ => none
  | t :: ts, u => if t = u then some 0 else (token2id ts u).map (fun n => n + 1)

/-- Document frequency of a term across a list of token sequences. -/
def docFreq (all : List (List String)) (t : String) : ℕ :=
  (all.filter (fun s => s.contains t)).length

/-- Modelled from the spec: §3/§4.3 Weighted Sparse Vector — one entry
`(id, tf, df)` per term of the sequence with a nonzero weight; the weight
itself is `tf * log (N / df)` (see `entryWeight`), so entries whose term
occurs in every fit document (`df = N`, idf zero) are omitted, as are
terms with zero frequency. -/
def tfidfVec (dict : List String) (all : List (List String))
    (tokens : List String) : List (ℕ × ℕ × ℕ) :=
  (List.range dict.length).filterMap (fun i =>
    let t := dict.getD i ""
    let tf := tokens.count t
    let df := docFreq all t
    if tf ≠ 0 ∧ df ≠ all.length then some (i, tf, df) else none)

/-- The Embedding Capability.  Modelled from the spec: §3/§6 describe it as
an external black box owned outside the core; §4.4 derives from it, for
every pair of terms, a similarity score based on the cosine of their
embedding vectors.  The capability is represented here by the data the
pipeline actually consumes: the set of known terms and the pairwise cosine
similarity it induces (the spec's own test fixtures in §8 specify
capabilities exactly this way). -/
structure EmbeddingCapability where
  known : String → Bool
  sim : String → String → ℚ

/-- Clamp a similarity value into `[0, 1]`. -/
def clamp01 (x : ℚ) : ℚ := if x < 0 then 0 else if 1 < x then 1 else x

/-- Modelled from the spec: §3/§4.4 — self-similarity is 1, a pair
involving an unknown term has similarity 0, and any other entry is the
capability's cosine similarity, kept inside `[0, 1]` (§3: entries lie in
`[0, 1]`; §8: entries are capped at 1.0). -/
def rawSim (cap : EmbeddingCapability) (t u : String) : ℚ :=
  if t = u then 1
  else if cap.known t && cap.known u then clamp01 (cap.sim t u) else 0

/-- Insert an element into a list, before the first element it compares
no-later than: the insertion step of a stable insertion sort. -/
def insertSortedBy {α : Type} (le : α → α → Bool) (a : α) :
    List α → List α
  | [] => [a]
  | b :: l => if le a b then a :: b :: l else b :: insertSortedBy le a l

/-- Stable insertion sort with a boolean comparator. -/
def sortBy {α : Type} (le : α → α → Bool) : List α → List α
  | [] => []
  | a :: l => insertSortedBy le a (sortBy le l)

/-- Neighbor ranking for the retention policy of §4.4: higher similarity
first, ties broken by term id ascending. -/
def neighborLe (cap : EmbeddingCapability) (dict : List String)
    (i j k : ℕ) : Bool :=
  decide (rawSim cap (dict.getD i "") (dict.getD k "") <
      rawSim cap (dict.getD i "") (dict.getD j "")) ||
    (decide (rawSim cap (dict.getD i "") (dict.getD j "") =
        rawSim cap (dict.getD i "") (dict.getD k "")) && decide (j ≤ k))

/-- Modelled from the spec: §4.4 retention policy — for term `i`, keep only
the top `limit` positive-similarity neighbors, ranked by similarity
descending with ties broken by term id ascending. -/
def rowKeep (cap : EmbeddingCapability) (dict : List String) (limit : ℕ)
    (i : ℕ) : List ℕ :=
  (sortBy (neighborLe cap dict i)
    ((List.range dict.length).filter
      (fun j => j != i &&
        decide (0 < rawSim cap (dict.getD i "") (dict.getD j ""))))).take limit

/-- Modelled from the spec: §4.4 Term Similarity Matrix — entry `(i, j)` is
1 on the diagonal, the derived similarity when `j` is among the retained
neighbors of `i`, and implicitly 0 otherwise (per-row retention, hence
only approximate symmetry). -/
def matEntry (cap : EmbeddingCapability) (dict : List String) (limit : ℕ)
    (i j : ℕ) : ℚ :=
  if i = j then 1
  else if j ∈ rowKeep cap dict limit i then
    rawSim cap (dict.getD i "") (dict.getD j "")
  else 0

/-- The materialized Term Similarity Matrix, one row per term id. -/
def buildMatrix (cap : EmbeddingCapability) (dict : List String)
    (limit : ℕ) : List (List ℚ) :=
  (List.range dict.length).map (fun i =>
    (List.range dict.length).map (fun j => matEntry cap dict limit i j))

/-- Entry lookup in the materialized matrix (missing entries count as 0). -/
def matLookup (mat : List (List ℚ)) (i j : ℕ) : ℚ :=
  (mat.getD i []).getD j 0

/-- Stable descending comparison of explanation entries by score, the
model of `sorted(results_this_doc, reverse=True, key=lambda x: x[1])`. -/
def entryLe (a b : String × ℚ) : Bool := decide (b.2 ≤ a.2)

/-- Keep an entry only when its similarity score is strictly positive:
the `if score > 0.0` append of `_find_similar_terms`. -/
def keepPositive (w : String) (sc : ℚ) (rest : List (String × ℚ)) :
    List (String × ℚ) :=
  if 0 < sc then (w, sc) :: rest else rest

/-- Inner loop of `_find_similar_terms`: iterate over the distinct words of
one document (Python's `set(document)`, modelled as first-seen order), look
each word up in the Term Universe (`KeyError` — the unknown-term error — if
absent), read the similarity to the query term from the matrix, and keep
the strictly positive scores. -/
def collectEntries (mat : List (List ℚ)) (dict : List String) (idx1 : ℕ) :
    List String → Except String (List (String × ℚ))
  | [] => .ok []
  | w :: ws =>
    match token2id dict w with
    | none => .error w
    | some idx2 =>
      match collectEntries mat dict idx1 ws with
      | .error e => .error e
      | .ok rest => .ok (keepPositive w (matLookup mat idx1 idx2) rest)

/-- Per-document result of `_find_similar_terms`: the positive-score
entries, sorted descending by score, truncated to `term_limit`. -/
def similarForDoc (mat : List (List ℚ)) (dict : List String) (idx1 : ℕ)
    (term_limit : ℕ) (document : List String) :
    Except String (List (String × ℚ)) :=
  match collectEntries mat dict idx1 (firstSeen document) with
  | .error e => .error e
  | .ok l => .ok ((sortBy entryLe l).take term_limit)

/-- Middle loop of `_find_similar_terms`: one result list per document of
the corpus, for a fixed query term. -/
def similarForDocs (mat : List (List ℚ)) (dict : List String) (idx1 : ℕ)
    (term_limit : ℕ) : List (List String) →
    Except String (List (List (String × ℚ)))
  | [] => .ok []
  | d :: ds =>
    match similarForDoc mat dict idx1 term_limit d with
    | .error e => .error e
    | .ok l =>
      match similarForDocs mat dict idx1 term_limit ds with
      | .error e => .error e
      | .ok rest => .ok (l :: rest)

/-- The `_find_similar_terms` method: for each query term in order (looking
the term up in the Term Universe first — `KeyError` if absent) and then for
each document, produce the per-document list of similar terms; the result
is the flat list over `(query term, document)` pairs, exactly as the
Python loops append it. -/
def find_similar_terms (mat : List (List ℚ)) (dict : List String)
    (term_limit : ℕ) (query : List String) (corpus : List (List String)) :
    Except String (List (List (String × ℚ))) :=
  match query with
  | [] => .ok []
  | t :: ts =>
    match token2id dict t with
    | none => .error t
    | some idx1 =>
      match similarForDocs mat dict idx1 term_limit corpus with
      | .error e => .error e
      | .ok rows =>
        match find_similar_terms mat dict term_limit ts corpus with
        | .error e => .error e
        | .ok rest => .ok (rows ++ rest)

/-- Modelled from the spec: §4.3 — the weight of a sparse-vector entry
`(id, tf, df)` for a fit corpus of `n` documents is the raw term frequency
times `log (n / df)` (inverse document frequency). -/
noncomputable def entryWeight (n : ℕ) (e : ℕ × ℕ × ℕ) : ℝ :=
  (e.2.1 : ℝ) * Real.log ((n : ℝ) / (e.2.2 : ℝ))

/-- Modelled from the spec: §4.5 — the bilinear form `xᵀ M y` of two
weighted sparse vectors through the Term Similarity Matrix. -/
noncomputable def innerProd (n : ℕ) (mat : List (List ℚ))
    (xs ys : List (ℕ × ℕ × ℕ)) : ℝ :=
  (xs.map (fun x =>
    (ys.map (fun y =>
      entryWeight n x * (matLookup mat x.1 y.1 : ℝ) * entryWeight n y)).sum)).sum

/-- Modelled from the spec: §4.5 Soft Cosine Ranker —
`score(q, d) = (qᵀ M d) / (sqrt(qᵀ M q) * sqrt(dᵀ M d))`, and if either
denominator factor is 0 the score is defined as 0, not a division error. -/
noncomputable def softcossim (n : ℕ) (mat : List (List ℚ))
    (xs ys : List (ℕ × ℕ × ℕ)) : ℝ :=
  if Real.sqrt (innerProd n mat xs xs) = 0 ∨
      Real.sqrt (innerProd n mat ys ys) = 0 then 0
  else
    innerProd n mat xs ys /
      (Real.sqrt (innerProd n mat xs xs) * Real.sqrt (innerProd n mat ys ys))

/-- Ascending comparison of document positions by score, ties broken by
position ascending: the stable ascending sort underlying
`np.argsort(scores)`. -/
def scoreOrder (scores : List ℝ) (i j : ℕ) : Prop :=
  scores.getD i 0 < scores.getD j 0 ∨
    (scores.getD i 0 = scores.getD j 0 ∧ i ≤ j)

noncomputable instance scoreOrderDec (scores : List ℝ) :
    DecidableRel (scoreOrder scores) :=
  fun _ _ => Classical.propDecidable _

/-- The model of `np.argsort(scores)[::-1]`: positions sorted ascending by
score (stable), then reversed. -/
noncomputable def argsortDesc (scores : List ℝ) : List ℕ :=
  ((List.range scores.length).insertionSort (scoreOrder scores)).reverse

/-- The in-process state of a `DocSim` instance: the readiness flag, the
verbose flag, the configured stopwords, the Embedding Capability behind
`similarity_index`, and the three attributes `similarity_query` assigns on
`self` during a call (`self.dictionary`, `self.tfidf` — kept as the fit
data `(num_docs, dfs)` — and `self.similarity_matrix`). -/
structure DocSimState where
  model_ready : Bool
  verbose : Bool
  stopwords : List String
  cap : EmbeddingCapability
  dictionary : Option (List String)
  tfidf : Option (ℕ × List ℕ)
  similarity_matrix : Option (List (List ℚ))

/-- A returned ranking: one tuple `(document index, score, optional
explanation list)` per entry; the third component is `none` on the
`explain=False` path. -/
abbrev QueryResult := List (ℕ × ℝ × Option (List (String × ℚ)))

/-- The fit corpus of one invocation: every preprocessed document plus the
preprocessed query as one more sequence (`corpus + [query]`). -/
def pipeAll (stopwords : List String) (query_string : String)
    (documents : List String) : List (List String) :=
  documents.map (preprocess stopwords) ++ [preprocess stopwords query_string]

/-- The Term Universe built by one invocation. -/
def pipeDict (stopwords : List String) (query_string : String)
    (documents : List String) : List String :=
  buildDictionary (pipeAll stopwords query_string documents)

/-- The document frequencies recorded by the fitted weighting model, one
per term id. -/
def pipeDfs (stopwords : List String) (query_string : String)
    (documents : List String) : List ℕ :=
  (pipeDict stopwords query_string documents).map
    (docFreq (pipeAll stopwords query_string documents))

/-- The Term Similarity Matrix built by one invocation
(`nonzero_limit=100` as in the source). -/
def pipeMat (cap : EmbeddingCapability) (stopwords : List String)
    (query_string : String) (documents : List String) : List (List ℚ) :=
  buildMatrix cap (pipeDict stopwords query_string documents) 100

/-- The weighted sparse vector of one token sequence in the context of one
invocation. -/
def pipeVec (stopwords : List String) (query_string : String)
    (documents : List String) (tokens : List String) : List (ℕ × ℕ × ℕ) :=
  tfidfVec (pipeDict stopwords query_string documents)
    (pipeAll stopwords query_string documents) tokens

/-- The `_softcossim` scores of one invocation, one per document in
original order. -/
noncomputable def pipeScores (cap : EmbeddingCapability)
    (stopwords : List String) (query_string : String)
    (documents : List String) : List ℝ :=
  (documents.map (preprocess stopwords)).map (fun d =>
    softcossim (pipeAll stopwords query_string documents).length
      (pipeMat cap stopwords query_string documents)
      (pipeVec stopwords query_string documents (preprocess stopwords query_string))
      (pipeVec stopwords query_string documents d))

/-- Result assembly of `similarity_query`: rank by `argsortDesc`, gather
the sorted scores by fancy indexing, and zip — on the `explain=True` path
with the flat `_find_similar_terms` list (`zip` truncates to the shortest
input, exactly as in Python). -/
noncomputable def rankedResults (cap : EmbeddingCapability)
    (stopwords : List String) (query_string : String)
    (documents : List String) (explain : Bool) : QueryResult :=
  let scores := pipeScores cap stopwords query_string documents
  let sorted_indexes := argsortDesc scores
  let sorted_scores := sorted_indexes.map (fun i => scores.getD i 0)
  if explain then
    let similar_terms :=
      (find_similar_terms (pipeMat cap stopwords query_string documents)
        (pipeDict stopwords query_string documents) 5
        (preprocess stopwords query_string)
        (documents.map (preprocess stopwords))).toOption.getD []
    (sorted_indexes.zip (sorted_scores.zip similar_terms)).map
      (fun p => (p.1, p.2.1, some p.2.2))
  else
    (sorted_indexes.zip sorted_scores).map (fun p => (p.1, p.2, none))

/-- The `similarity_query` method.  When the model-ready flag is unset it
returns the `None` sentinel at once, touching nothing; otherwise it
preprocesses the query and documents, rebuilds the Term Universe, the
weighting model and the Term Similarity Matrix on `self`, and returns the
assembled ranking.  The returned state records the attribute assignments
performed on `self`. -/
noncomputable def similarity_query (s : DocSimState) (query_string : String)
    (documents : List String) (explain : Bool) :
    Option QueryResult × DocSimState :=
  if s.model_ready then
    (some (rankedResults s.cap s.stopwords query_string documents explain),
     { s with
        dictionary := some (pipeDict s.stopwords query_string documents)
        tfidf := some ((pipeAll s.stopwords query_string documents).length,
          pipeDfs s.stopwords query_string documents)
        similarity_matrix := some (pipeMat s.cap s.stopwords query_string documents) })
  else (none, s)

/-- The state of a `DocSim_threaded` instance.  The `stopwords` attribute
is optional because the constructor's `if stopwords is None` statement has
no `else` branch: `none` here means the attribute was never assigned, so
reading it raises `AttributeError`. -/
structure ThreadedState where
  model_ready : Bool
  verbose : Bool
  stopwordsAttr : Option (List String)
  cap : EmbeddingCapability

/-- The `DocSim_threaded` constructor.  It stores the verbose flag, starts
the background load (whose eventual completion sets the readiness flag —
`ready` records whether the thread has finished at observation time), and
assigns the stopwords attribute only in the `stopwords is None` case. -/
def docSimThreadedInit (stopwords : Option (List String)) (verbose : Bool)
    (cap : EmbeddingCapability) (ready : Bool) : ThreadedState :=
  { model_ready := ready
    verbose := verbose
    stopwordsAttr :=
      match stopwords with
      | none => some nltk_stop_words
      | some _ => none
    cap := cap }

/-- Calling `preprocess` on a `DocSim_threaded` instance: reading the
missing stopwords attribute raises `AttributeError`. -/
def threadedPreprocess (s : ThreadedState) (doc : String) :
    Except String (List String) :=
  match s.stopwordsAttr with
  | none => .error "AttributeError"
  | some sw => .ok (preprocess sw doc)

/-- Calling `similarity_query` on a `DocSim_threaded` instance: before
readiness it returns the `None` sentinel without touching the stopwords
attribute; once ready, the first `preprocess` call reads the attribute,
so a missing attribute raises `AttributeError` and otherwise the inherited
pipeline runs. -/
noncomputable def threadedSimilarityQuery (s : ThreadedState)
    (query_string : String) (documents : List String) (explain : Bool) :
    Except String (Option QueryResult) :=
  if s.model_ready then
    match s.stopwordsAttr with
    | none => .error "AttributeError"
    | some sw =>
      .ok (similarity_query
        { model_ready := true, verbose := s.verbose, stopwords := sw,
          cap := s.cap, dictionary := none, tfidf := none,
          similarity_matrix := none } query_string documents explain).1
  else .ok none

/-- A concrete Embedding Capability in which every term is known and all
distinct pairs have similarity 0. -/
def flatCap : EmbeddingCapability :=
  { known := fun _ => true, sim := fun _ _ => 0 }

/-- A concrete Embedding Capability in which `quick` has cosine similarity
1 to both `fast` and `cheap` while `fast` and `cheap` are orthogonal. -/
def boostCap : EmbeddingCapability :=
  { known := fun _ => true
    sim := fun t u =>
      if (t = "fast" ∧ u = "quick") ∨ (t = "quick" ∧ u = "fast") ∨
          (t = "cheap" ∧ u = "quick") ∨ (t = "quick" ∧ u = "cheap") then
        1
      else 0 }

/-- A ready `DocSim` instance with default stopwords over `flatCap`. -/
def readyState : DocSimState :=
  { model_ready := true, verbose := false, stopwords := nltk_stop_words,
    cap := flatCap, dictionary := none, tfidf := none,
    similarity_matrix := none }

/-- A ready `DocSim` instance over `boostCap`. -/
def boostState : DocSimState :=
  { readyState with cap := boostCap }

/-- A `DocSim` instance whose model-ready flag is not set. -/
def notReadyState : DocSimState :=
  { readyState with model_ready := false }

/-- A ready instance carrying leftover structures from an earlier call. -/
def staleState : DocSimState :=
  { readyState with
      dictionary := some ["stale"]
      tfidf := some (7, [42])
      similarity_matrix := some [[0]] }

/-- On an instance whose model-ready flag is unset, `similarity_query`
returns the `None` sentinel and leaves the state untouched: no
preprocessing and no universe, weighting or matrix construction happens. -/
theorem similarity_query_not_ready (s : DocSimState)
    (h : s.model_ready = false) (query_string : String)
    (documents : List String) (explain : Bool) :
    similarity_query s query_string documents explain = (none, s) := by
  unfold similarity_query
  rw [h]
  simp

/-- Witness for `similarity_query_not_ready` at a concrete unready
instance. -/
theorem similarity_query_not_ready_witness :
    notReadyState.model_ready = false ∧
      similarity_query notReadyState "speedy car" ["a fast car", "a dog"]
        false = (none, notReadyState) :=
  ⟨rfl, similarity_query_not_ready notReadyState rfl "speedy car"
    ["a fast car", "a dog"] false⟩

/-- Calling `similarity_query` a second time with the same arguments, on
the state left behind by the first call, reproduces the first call
exactly: the structures assigned on `self` during the first call are
rebuilt, never reused. -/
theorem similarity_query_second_call (s : DocSimState)
    (query_string : String) (documents : List String) (explain : Bool) :
    similarity_query (similarity_query s query_string documents explain).2
        query_string documents explain =
      similarity_query s query_string documents explain := by
  obtain ⟨m, v, sw, c, d, tf, sm⟩ := s
  cases m <;> simp [similarity_query]

/-- The result of `similarity_query` depends only on the call's arguments,
the readiness flag, the stopword set and the embedding capability — not on
any dictionary, weighting model or similarity matrix left on the instance
by earlier calls — and a ready call stores the freshly rebuilt Term
Universe, weighting data and Term Similarity Matrix of the current
invocation on the instance. -/
theorem similarity_query_rebuilds (s t : DocSimState)
    (query_string : String) (documents : List String) (explain : Bool)
    (hm : s.model_ready = t.model_ready) (hsw : s.stopwords = t.stopwords)
    (hc : s.cap = t.cap) :
    (similarity_query s query_string documents explain).1 =
        (similarity_query t query_string documents explain).1 ∧
      (s.model_ready = true →
        (similarity_query s query_string documents explain).2.dictionary =
            some (pipeDict s.stopwords query_string documents) ∧
          (similarity_query s query_string documents explain).2.tfidf =
            some ((pipeAll s.stopwords query_string documents).length,
              pipeDfs s.stopwords query_string documents) ∧
          (similarity_query s query_string documents explain).2.similarity_matrix =
            some (pipeMat s.cap s.stopwords query_string documents)) := by
  obtain ⟨m, v, sw, c, d, tf, sm⟩ := s
  obtain ⟨m2, v2, sw2, c2, d2, tf2, sm2⟩ := t
  simp only at hm hsw hc
  subst hm hsw hc
  cases m <;> simp [similarity_query]

/-- Witness for `similarity_query_rebuilds`: a ready instance still
carrying structures from an earlier call gives the same answer as a fresh
one, and stores the rebuilt structures. -/
theorem similarity_query_rebuilds_witness :
    (similarity_query staleState "speedy car" ["a fast car"] false).1 =
        (similarity_query readyState "speedy car" ["a fast car"] false).1 ∧
      (similarity_query staleState "speedy car" ["a fast car"] false).2.dictionary =
        some (pipeDict staleState.stopwords "speedy car" ["a fast car"]) :=
  ⟨(similarity_query_rebuilds staleState readyState "speedy car"
      ["a fast car"] false rfl rfl rfl).1,
    ((similarity_query_rebuilds staleState readyState "speedy car"
      ["a fast car"] false rfl rfl rfl).2 rfl).1⟩

/-- When `DocSim_threaded` is constructed with a supplied (non-None)
stopword set, the constructor's `if stopwords is None` statement has no
else branch, so the stopwords attribute is never assigned: the supplied
set is ignored, `preprocess` raises `AttributeError`, and
`similarity_query` raises `AttributeError` once the background load has
set the readiness flag — while before readiness it returns the not-ready
sentinel `None` without error, since it never reads the attribute. -/
theorem threaded_stopwords_ignored (sw : List String) (verbose : Bool)
    (cap : EmbeddingCapability) (ready : Bool) (doc query_string : String)
    (documents : List String) (explain : Bool) :
    (docSimThreadedInit (some sw) verbose cap ready).stopwordsAttr = none ∧
      threadedPreprocess (docSimThreadedInit (some sw) verbose cap ready)
          doc = .error "AttributeError" ∧
      (ready = true →
        threadedSimilarityQuery (docSimThreadedInit (some sw) verbose cap
            ready) query_string documents explain = .error "AttributeError") ∧
      (ready = false →
        threadedSimilarityQuery (docSimThreadedInit (some sw) verbose cap
            ready) query_string documents explain = .ok none) := by
  cases ready <;>
    simp [docSimThreadedInit, threadedPreprocess, threadedSimilarityQuery]

/-- Witness for `threaded_stopwords_ignored` at concrete arguments, in
both readiness phases. -/
theorem threaded_stopwords_ignored_witness :
    (docSimThreadedInit (some ["the", "and"]) false flatCap true).stopwordsAttr
        = none ∧
      threadedPreprocess (docSimThreadedInit (some ["the", "and"]) false
          flatCap true) "a doc" = .error "AttributeError" ∧
      threadedSimilarityQuery (docSimThreadedInit (some ["the", "and"]) false
          flatCap true) "q" ["d"] false = .error "AttributeError" ∧
      threadedSimilarityQuery (docSimThreadedInit (some ["the", "and"]) false
          flatCap false) "q" ["d"] false = .ok none :=
  ⟨(threaded_stopwords_ignored ["the", "and"] false flatCap true "a doc" "q"
      ["d"] false).1,
    (threaded_stopwords_ignored ["the", "and"] false flatCap true "a doc" "q"
      ["d"] false).2.1,
    (threaded_stopwords_ignored ["the", "and"] false flatCap true "a doc" "q"
      ["d"] false).2.2.1 rfl,
    (threaded_stopwords_ignored ["the", "and"] false flatCap false "a doc" "q"
      ["d"] false).2.2.2 rfl⟩

/-- A call to `similarity_query` on a threaded instance that is not yet
ready returns the sentinel, not an `AttributeError` — the concrete input
refuting the original form of the claim that every subsequent call fails
with an attribute error. -/
theorem threaded_not_ready_counterexample :
    threadedSimilarityQuery (docSimThreadedInit (some ["the"]) false flatCap
        false) "q" ["d"] false = .ok none ∧
      (docSimThreadedInit (some ["the"]) false flatCap false).stopwordsAttr =
        none := by
  constructor
  · simp [docSimThreadedInit, threadedSimilarityQuery]
  · rfl

instance (scores : List ℝ) : IsTotal ℕ (scoreOrder scores) := by
  constructor
  intro i j
  rcases lt_trichotomy (scores.getD i 0) (scores.getD j 0) with h | h | h
  · exact Or.inl (Or.inl h)
  · rcases Nat.le_total i j with hij | hij
    · exact Or.inl (Or.inr ⟨h, hij⟩)
    · exact Or.inr (Or.inr ⟨h.symm, hij⟩)
  · exact Or.inr (Or.inl h)

instance (scores : List ℝ) : IsTrans ℕ (scoreOrder scores) := by
  constructor
  intro i j k hij hjk
  rcases hij with h1 | ⟨h1, h1n⟩ <;> rcases hjk with h2 | ⟨h2, h2n⟩
  · exact Or.inl (h1.trans h2)
  · exact Or.inl (lt_of_lt_of_eq h1 h2)
  · exact Or.inl (lt_of_eq_of_lt h1 h2)
  · exact Or.inr ⟨h1.trans h2, h1n.trans h2n⟩

/-- The argsort index list is a permutation of the document positions. -/
theorem argsortDesc_perm (scores : List ℝ) :
    (argsortDesc scores).Perm (List.range scores.length) := by
  unfold argsortDesc
  exact (List.reverse_perm _).trans (List.perm_insertionSort _ _)

/-- The argsort index list has no duplicate positions. -/
theorem argsortDesc_nodup (scores : List ℝ) : (argsortDesc scores).Nodup :=
  (argsortDesc_perm scores).symm.nodup (List.nodup_range _)

/-- Every document position below the score count occurs in the argsort
index list. -/
theorem mem_argsortDesc (scores : List ℝ) (i : ℕ) (h : i < scores.length) :
    i ∈ argsortDesc scores :=
  ((argsortDesc_perm scores).mem_iff).2 (List.mem_range.2 h)

/-- The argsort index list is ordered by score descending, with equal
scores ordered by position descending (the ascending stable sort is
reversed). -/
theorem argsortDesc_pairwise (scores : List ℝ) :
    (argsortDesc scores).Pairwise (fun i j =>
      scores.getD j 0 < scores.getD i 0 ∨
        (scores.getD j 0 = scores.getD i 0 ∧ j < i)) := by
  have hsorted : ((List.range scores.length).insertionSort
      (scoreOrder scores)).Pairwise (scoreOrder scores) :=
    List.sorted_insertionSort (scoreOrder scores) (List.range scores.length)
  have hrev : (argsortDesc scores).Pairwise (fun i j => scoreOrder scores j i) := by
    unfold argsortDesc
    exact List.pairwise_reverse.2 hsorted
  have hne : (argsortDesc scores).Pairwise (fun i j => i ≠ j) :=
    List.Pairwise.imp (fun h => h) (argsortDesc_nodup scores)
  refine (hrev.and hne).imp ?_
  rintro i j ⟨hord, hij⟩
  rcases hord with h | ⟨h, hle⟩
  · exact Or.inl h
  · exact Or.inr ⟨h, lt_of_le_of_ne hle (Ne.symm hij)⟩

/-- Zipping a list with its own image under a map pairs each element with
its image. -/
theorem zip_map_self {α β : Type} (g : α → β) (l : List α) :
    l.zip (l.map g) = l.map (fun x => (x, g x)) := by
  induction l with
  | nil => rfl
  | cons a l ih => simp [ih]

/-- Zipping a list against the zip of its own image with a third list
reassociates into a zip with that third list. -/
theorem zip_map_zip {α β γ : Type} (g : α → β) (l : List α) (st : List γ) :
    l.zip ((l.map g).zip st) = (l.zip st).map (fun p => (p.1, g p.1, p.2)) := by
  induction l generalizing st with
  | nil => rfl
  | cons a l ih =>
    cases st with
    | nil => rfl
    | cons b st => simp [ih]

/-- The first components of a zip form a prefix of the left input. -/
theorem map_fst_zip_eq_take {α β : Type} (l : List α) (st : List β) :
    (l.zip st).map Prod.fst = l.take st.length := by
  induction l generalizing st with
  | nil => simp
  | cons a l ih =>
    cases st with
    | nil => rfl
    | cons b st => simp [ih]

/-- Shape of the `explain=False` result: one tuple `(i, scores[i], None)`
per argsort position. -/
theorem rankedResults_false_shape (cap : EmbeddingCapability)
    (stopwords : List String) (query_string : String)
    (documents : List String) :
    rankedResults cap stopwords query_string documents false =
      (argsortDesc (pipeScores cap stopwords query_string documents)).map
        (fun i =>
          (i, (pipeScores cap stopwords query_string documents).getD i 0,
            none)) := by
  unfold rankedResults
  simp [zip_map_self]

/-- Shape of the `explain=True` result: the argsort positions zipped with
the flat explanation list, each carrying its score. -/
theorem rankedResults_true_shape (cap : EmbeddingCapability)
    (stopwords : List String) (query_string : String)
    (documents : List String) :
    rankedResults cap stopwords query_string documents true =
      ((argsortDesc (pipeScores cap stopwords query_string documents)).zip
          ((find_similar_terms (pipeMat cap stopwords query_string documents)
            (pipeDict stopwords query_string documents) 5
            (preprocess stopwords query_string)
            (documents.map (preprocess stopwords))).toOption.getD [])).map
        (fun p =>
          (p.1, (pipeScores cap stopwords query_string documents).getD p.1 0,
            some p.2)) := by
  unfold rankedResults
  simp [zip_map_zip]

/-- Every list returned by `similarity_query` is sorted by score
descending; documents with equal scores appear in descending original
index order (the code ascending-argsorts and then reverses, so on ties the
smaller original index comes last, not first). -/
theorem similarity_query_sorted (s : DocSimState) (query_string : String)
    (documents : List String) (explain : Bool) (l : QueryResult)
    (h : (similarity_query s query_string documents explain).1 = some l) :
    l.Pairwise (fun a b =>
      b.2.1 < a.2.1 ∨ (b.2.1 = a.2.1 ∧ b.1 < a.1)) := by
  unfold similarity_query at h
  by_cases hm : s.model_ready
  · rw [if_pos hm] at h
    simp only [Option.some.injEq] at h
    subst h
    cases explain
    · rw [rankedResults_false_shape]
      rw [List.pairwise_map]
      exact argsortDesc_pairwise _
    · rw [rankedResults_true_shape]
      rw [List.pairwise_map]
      have hfst := map_fst_zip_eq_take
        (argsortDesc (pipeScores s.cap s.stopwords query_string documents))
        ((find_similar_terms (pipeMat s.cap s.stopwords query_string documents)
          (pipeDict s.stopwords query_string documents) 5
          (preprocess s.stopwords query_string)
          (documents.map (preprocess s.stopwords))).toOption.getD [])
      have htake := List.Pairwise.sublist
        (List.take_sublist
          ((find_similar_terms (pipeMat s.cap s.stopwords query_string documents)
            (pipeDict s.stopwords query_string documents) 5
            (preprocess s.stopwords query_string)
            (documents.map (preprocess s.stopwords))).toOption.getD []).length
          (argsortDesc (pipeScores s.cap s.stopwords query_string documents)))
        (argsortDesc_pairwise (pipeScores s.cap s.stopwords query_string documents))
      rw [← hfst] at htake
      rw [List.pairwise_map] at htake
      exact htake.imp (fun h => h)
  · rw [if_neg hm] at h
    simp at h

theorem clamp01_nonneg (x : ℚ) : 0 ≤ clamp01 x := by
  unfold clamp01
  split
  · exact le_refl 0
  · split
    · norm_num
    · exact le_of_not_lt (by assumption)

theorem rawSim_nonneg (cap : EmbeddingCapability) (t u : String) :
    0 ≤ rawSim cap t u := by
  unfold rawSim
  split
  · norm_num
  · split
    · exact clamp01_nonneg _
    · exact le_refl 0

theorem matEntry_nonneg (cap : EmbeddingCapability) (dict : List String)
    (limit i j : ℕ) : 0 ≤ matEntry cap dict limit i j := by
  unfold matEntry
  split
  · norm_num
  · split
    · exact rawSim_nonneg _ _ _
    · exact le_refl 0

/-- Matrix lookups in a matrix all of whose stored entries are
non-negative are non-negative (missing entries default to 0). -/
theorem matLookup_nonneg_of (mat : List (List ℚ))
    (h : ∀ row ∈ mat, ∀ x ∈ row, 0 ≤ x) (i j : ℕ) :
    0 ≤ matLookup mat i j := by
  unfold matLookup
  rcases Nat.lt_or_ge i mat.length with hi | hi
  · rw [List.getD_eq_getElem _ _ hi]
    rcases Nat.lt_or_ge j mat[i].length with hj | hj
    · rw [List.getD_eq_getElem _ _ hj]
      exact h _ (List.getElem_mem hi) _ (List.getElem_mem hj)
    · rw [List.getD_eq_default _ _ hj]
  · rw [List.getD_eq_default _ _ hi]
    simp

/-- Every stored entry of the materialized Term Similarity Matrix is
non-negative. -/
theorem buildMatrix_entries_nonneg (cap : EmbeddingCapability)
    (dict : List String) (limit : ℕ) :
    ∀ row ∈ buildMatrix cap dict limit, ∀ x ∈ row, 0 ≤ x := by
  intro row hrow x hx
  unfold buildMatrix at hrow
  rw [List.mem_map] at hrow
  obtain ⟨i, _, rfl⟩ := hrow
  rw [List.mem_map] at hx
  obtain ⟨j, _, rfl⟩ := hx
  exact matEntry_nonneg _ _ _ _ _

/-- Every entry read out of the materialized Term Similarity Matrix is
non-negative. -/
theorem matLookup_buildMatrix_nonneg (cap : EmbeddingCapability)
    (dict : List String) (limit i j : ℕ) :
    0 ≤ matLookup (buildMatrix cap dict limit) i j :=
  matLookup_nonneg_of _ (buildMatrix_entries_nonneg cap dict limit) i j

/-- Entries of a weighted sparse vector record a document frequency
bounded by the fit corpus size. -/
theorem tfidfVec_df_le (dict : List String) (all : List (List String))
    (tokens : List String) (e : ℕ × ℕ × ℕ)
    (he : e ∈ tfidfVec dict all tokens) : e.2.2 ≤ all.length := by
  unfold tfidfVec at he
  rw [List.mem_filterMap] at he
  obtain ⟨i, _, hi⟩ := he
  by_cases hc : tokens.count (dict.getD i "") ≠ 0 ∧
      docFreq all (dict.getD i "") ≠ all.length
  · rw [if_pos hc] at hi
    cases hi
    exact List.length_filter_le _ _
  · rw [if_neg hc] at hi
    cases hi

/-- The weight of a sparse-vector entry whose document frequency does not
exceed the corpus size is non-negative. -/
theorem entryWeight_nonneg (n : ℕ) (e : ℕ × ℕ × ℕ) (h : e.2.2 ≤ n) :
    0 ≤ entryWeight n e := by
  unfold entryWeight
  rcases Nat.eq_zero_or_pos e.2.2 with h0 | h0
  · rw [h0]
    norm_num
  · refine mul_nonneg (by positivity) (Real.log_nonneg ?_)
    rw [le_div_iff₀ (by exact_mod_cast h0)]
    rw [one_mul]
    exact_mod_cast h

/-- The bilinear form of two vectors with bounded document frequencies
through the materialized matrix is non-negative. -/
theorem innerProd_nonneg (n : ℕ) (cap : EmbeddingCapability)
    (dict : List String) (limit : ℕ) (xs ys : List (ℕ × ℕ × ℕ))
    (hx : ∀ x ∈ xs, x.2.2 ≤ n) (hy : ∀ y ∈ ys, y.2.2 ≤ n) :
    0 ≤ innerProd n (buildMatrix cap dict limit) xs ys := by
  unfold innerProd
  refine List.sum_nonneg ?_
  intro v hv
  rw [List.mem_map] at hv
  obtain ⟨x, hxmem, rfl⟩ := hv
  refine List.sum_nonneg ?_
  intro w hw
  rw [List.mem_map] at hw
  obtain ⟨y, hymem, rfl⟩ := hw
  refine mul_nonneg (mul_nonneg (entryWeight_nonneg n x (hx x hxmem)) ?_)
    (entryWeight_nonneg n y (hy y hymem))
  rw [Rat.cast_nonneg]
  exact matLookup_buildMatrix_nonneg cap dict limit x.1 y.1

/-- Soft cosine scores computed against a materialized matrix from vectors
with bounded document frequencies are non-negative. -/
theorem softcossim_nonneg (n : ℕ) (cap : EmbeddingCapability)
    (dict : List String) (limit : ℕ) (xs ys : List (ℕ × ℕ × ℕ))
    (hx : ∀ x ∈ xs, x.2.2 ≤ n) (hy : ∀ y ∈ ys, y.2.2 ≤ n) :
    0 ≤ softcossim n (buildMatrix cap dict limit) xs ys := by
  unfold softcossim
  split
  · exact le_refl 0
  · exact div_nonneg (innerProd_nonneg n cap dict limit xs ys hx hy)
      (mul_nonneg (Real.sqrt_nonneg _) (Real.sqrt_nonneg _))

/-- Every per-document score of an invocation is non-negative. -/
theorem pipeScores_nonneg (cap : EmbeddingCapability)
    (stopwords : List String) (query_string : String)
    (documents : List String) :
    ∀ x ∈ pipeScores cap stopwords query_string documents, 0 ≤ x := by
  intro x hx
  unfold pipeScores at hx
  rw [List.mem_map] at hx
  obtain ⟨d, _, rfl⟩ := hx
  unfold pipeMat
  exact softcossim_nonneg _ _ _ _ _ _
    (fun e he => tfidfVec_df_le _ _ _ e he)
    (fun e he => tfidfVec_df_le _ _ _ e he)

theorem getD_nonneg (l : List ℝ) (h : ∀ x ∈ l, 0 ≤ x) (i : ℕ) :
    0 ≤ l.getD i 0 := by
  rcases Nat.lt_or_ge i l.length with hi | hi
  · rw [List.getD_eq_getElem _ _ hi]
    exact h _ (List.getElem_mem hi)
  · rw [List.getD_eq_default _ _ hi]

/-- Every score in a list returned by `similarity_query` is non-negative
(the similarity-matrix entries are kept in `[0, 1]` and the TF-IDF weights
are non-negative, so numerator and denominators of the soft cosine are
non-negative). -/
theorem similarity_query_scores_nonneg (s : DocSimState)
    (query_string : String) (documents : List String) (explain : Bool)
    (l : QueryResult)
    (h : (similarity_query s query_string documents explain).1 = some l) :
    ∀ p ∈ l, 0 ≤ p.2.1 := by
  unfold similarity_query at h
  by_cases hm : s.model_ready
  · rw [if_pos hm] at h
    simp only [Option.some.injEq] at h
    subst h
    intro p hp
    cases explain
    · rw [rankedResults_false_shape] at hp
      rw [List.mem_map] at hp
      obtain ⟨i, _, rfl⟩ := hp
      exact getD_nonneg _ (pipeScores_nonneg _ _ _ _) i
    · rw [rankedResults_true_shape] at hp
      rw [List.mem_map] at hp
      obtain ⟨q, _, rfl⟩ := hp
      exact getD_nonneg _ (pipeScores_nonneg _ _ _ _) q.1
  · rw [if_neg hm] at h
    simp at h

theorem innerProd_nil_left (n : ℕ) (mat : List (List ℚ))
    (ys : List (ℕ × ℕ × ℕ)) : innerProd n mat [] ys = 0 := rfl

theorem innerProd_nil_right (n : ℕ) (mat : List (List ℚ))
    (xs : List (ℕ × ℕ × ℕ)) : innerProd n mat xs [] = 0 := by
  unfold innerProd
  simp

/-- A query with an empty weighted vector scores 0 against everything:
the zero-denominator branch of the soft cosine. -/
theorem softcossim_nil_left (n : ℕ) (mat : List (List ℚ))
    (ys : List (ℕ × ℕ × ℕ)) : softcossim n mat [] ys = 0 := by
  unfold softcossim
  rw [if_pos (Or.inl (by rw [innerProd_nil_left, Real.sqrt_zero]))]

/-- A document with an empty weighted vector scores 0: the
zero-denominator branch of the soft cosine. -/
theorem softcossim_nil_right (n : ℕ) (mat : List (List ℚ))
    (xs : List (ℕ × ℕ × ℕ)) : softcossim n mat xs [] = 0 := by
  unfold softcossim
  rw [if_pos (Or.inr (by rw [innerProd_nil_right, Real.sqrt_zero]))]

/-- An empty token sequence yields an empty weighted vector. -/
theorem tfidfVec_nil (dict : List String) (all : List (List String)) :
    tfidfVec dict all [] = [] := by
  unfold tfidfVec
  simp

theorem pipeVec_nil (stopwords : List String) (query_string : String)
    (documents : List String) :
    pipeVec stopwords query_string documents [] = [] := by
  unfold pipeVec
  exact tfidfVec_nil _ _

theorem pipeScores_length (cap : EmbeddingCapability)
    (stopwords : List String) (query_string : String)
    (documents : List String) :
    (pipeScores cap stopwords query_string documents).length =
      documents.length := by
  unfold pipeScores
  simp

/-- The score slot of a document whose normalized token sequence is empty
is 0. -/
theorem pipeScores_getD_of_empty (cap : EmbeddingCapability)
    (stopwords : List String) (query_string : String)
    (documents : List String) (i : ℕ) (hi : i < documents.length)
    (hp : preprocess stopwords (documents.getD i "") = []) :
    (pipeScores cap stopwords query_string documents).getD i 0 = 0 := by
  have hlen := pipeScores_length cap stopwords query_string documents
  rw [List.getD_eq_getElem _ _ (by rw [hlen]; exact hi)]
  unfold pipeScores
  simp only [List.getElem_map]
  rw [show documents[i] = documents.getD i "" from
    (List.getD_eq_getElem documents "" hi).symm]
  rw [hp, pipeVec_nil]
  exact softcossim_nil_right _ _ _

/-- A document whose normalized token sequence is empty receives score 0
in the ranking returned by an `explain=False` call (the zero-denominator
case of the soft cosine is defined as 0, never a division error). -/
theorem similarity_query_empty_doc_zero (s : DocSimState)
    (query_string : String) (documents : List String) (i : ℕ)
    (l : QueryResult)
    (h : (similarity_query s query_string documents false).1 = some l)
    (hi : i < documents.length)
    (hp : preprocess s.stopwords (documents.getD i "") = []) :
    (i, (0 : ℝ), (none : Option (List (String × ℚ)))) ∈ l := by
  unfold similarity_query at h
  by_cases hm : s.model_ready
  · rw [if_pos hm] at h
    simp only [Option.some.injEq] at h
    subst h
    rw [rankedResults_false_shape]
    rw [List.mem_map]
    refine ⟨i, mem_argsortDesc _ i ?_, ?_⟩
    · rw [pipeScores_length]
      exact hi
    · rw [pipeScores_getD_of_empty s.cap s.stopwords query_string documents
        i hi hp]
  · rw [if_neg hm] at h
    simp at h

theorem argsortDesc_one (a : ℝ) : argsortDesc [a] = [0] := by
  unfold argsortDesc
  rw [show ([a] : List ℝ).length = 1 from rfl]
  rw [show List.range 1 = [0] from rfl]
  simp [List.insertionSort, List.orderedInsert]

theorem argsortDesc_pair (a b : ℝ) (h : scoreOrder [a, b] 0 1) :
    argsortDesc [a, b] = [1, 0] := by
  unfold argsortDesc
  rw [show ([a, b] : List ℝ).length = 2 from rfl]
  rw [show List.range 2 = [0, 1] from rfl]
  simp only [List.insertionSort, List.orderedInsert]
  rw [if_pos h]
  rfl

/-- On a ready instance, `similarity_query` returns the assembled ranking. -/
theorem similarity_query_ready_eq (s : DocSimState)
    (h : s.model_ready = true) (query_string : String)
    (documents : List String) (explain : Bool) :
    (similarity_query s query_string documents explain).1 =
      some (rankedResults s.cap s.stopwords query_string documents explain) := by
  unfold similarity_query
  rw [h]
  simp

/-- Evaluation of the ranking for an empty query over two empty documents:
both scores are 0 and the reversed argsort lists the larger original index
first. -/
theorem ranked_empty_pair :
    rankedResults flatCap nltk_stop_words "" ["", ""] false =
      [(1, 0, none), (0, 0, none)] := by
  have hsc : pipeScores flatCap nltk_stop_words "" ["", ""] = [0, 0] := by
    unfold pipeScores
    simp only [List.map]
    rw [show preprocess nltk_stop_words "" = [] from rfl]
    rw [pipeVec_nil]
    rw [softcossim_nil_left]
  rw [rankedResults_false_shape, hsc]
  rw [argsortDesc_pair 0 0 (Or.inr ⟨rfl, Nat.zero_le 1⟩)]
  rfl

/-- The empty-query call over two empty documents, through
`similarity_query` itself. -/
theorem eval_empty_pair :
    (similarity_query readyState "" ["", ""] false).1 =
      some [(1, 0, none), (0, 0, none)] := by
  rw [similarity_query_ready_eq readyState rfl]
  show some (rankedResults flatCap nltk_stop_words "" ["", ""] false) = _
  rw [ranked_empty_pair]

/-- Two documents with equal scores are returned with the larger original
index first — `np.argsort(scores)[::-1]` reverses the ascending tie order
— refuting the claim that ties are broken by the smaller original document
index appearing first. -/
theorem C1_counterexample :
    (similarity_query readyState "" ["", ""] false).1 =
        some [(1, 0, none), (0, 0, none)] ∧
      ¬ ([((1 : ℕ), (0 : ℝ), (none : Option (List (String × ℚ)))),
          (0, 0, none)].Pairwise (fun a b =>
            b.2.1 < a.2.1 ∨ (a.2.1 = b.2.1 ∧ a.1 < b.1))) := by
  refine ⟨eval_empty_pair, ?_⟩
  intro hpw
  rcases List.pairwise_cons.1 hpw with ⟨hrel, -⟩
  rcases hrel (0, 0, none) (by simp) with h | ⟨-, h⟩
  · exact lt_irrefl _ h
  · simp at h

/-- Witness for `similarity_query_sorted` on a concrete call with tied
scores. -/
theorem similarity_query_sorted_witness :
    ([((1 : ℕ), (0 : ℝ), (none : Option (List (String × ℚ)))),
      (0, 0, none)] : QueryResult).Pairwise (fun a b =>
        b.2.1 < a.2.1 ∨ (b.2.1 = a.2.1 ∧ b.1 < a.1)) :=
  similarity_query_sorted readyState "" ["", ""] false _ eval_empty_pair

/-- Evaluation of the `explain=False` ranking for an empty query over one
all-stopword document. -/
theorem ranked_stopword_single :
    rankedResults flatCap nltk_stop_words "" ["the"] false =
      [(0, 0, none)] := by
  have hsc : pipeScores flatCap nltk_stop_words "" ["the"] = [0] := by
    unfold pipeScores
    simp only [List.map]
    rw [show preprocess nltk_stop_words "" = [] from rfl]
    rw [show preprocess nltk_stop_words "the" = [] from rfl]
    rw [pipeVec_nil]
    rw [softcossim_nil_left]
  rw [rankedResults_false_shape, hsc]
  rw [argsortDesc_one]
  rfl

/-- Witness for `similarity_query_empty_doc_zero` on a concrete
all-stopword document. -/
theorem similarity_query_empty_doc_zero_witness :
    (0 : ℕ) < (["the"] : List String).length ∧
      preprocess readyState.stopwords ((["the"] : List String).getD 0 "") = [] ∧
      ((0 : ℕ), (0 : ℝ), (none : Option (List (String × ℚ)))) ∈
        ([(0, 0, none)] : QueryResult) :=
  ⟨Nat.zero_lt_one, rfl,
    similarity_query_empty_doc_zero readyState "" ["the"] 0 [(0, 0, none)]
      (by rw [similarity_query_ready_eq readyState rfl]
          show some (rankedResults flatCap nltk_stop_words "" ["the"] false) = _
          rw [ranked_stopword_single])
      Nat.zero_lt_one rfl⟩

/-- Witness for `similarity_query_scores_nonneg` on a concrete call. -/
theorem similarity_query_scores_nonneg_witness :
    (0 : ℝ) ≤ (((1 : ℕ), (0 : ℝ),
        (none : Option (List (String × ℚ)))) : ℕ × ℝ × _).2.1 :=
  similarity_query_scores_nonneg readyState "" ["", ""] false
    [(1, 0, none), (0, 0, none)] eval_empty_pair (1, 0, none) (by simp)

/-- With `explain=True` and a query that normalizes to nothing, the
`zip` against the empty `_find_similar_terms` list drops every tuple: the
all-stopword document receives no score entry at all, refuting the claim
for the `explain=True` path. -/
theorem C4_counterexample :
    preprocess readyState.stopwords "the" = [] ∧
      (similarity_query readyState "" ["the"] true).1 = some [] := by
  refine ⟨rfl, ?_⟩
  rw [similarity_query_ready_eq readyState rfl]
  show some (rankedResults flatCap nltk_stop_words "" ["the"] true) = _
  rw [rankedResults_true_shape]
  rw [show (find_similar_terms (pipeMat flatCap nltk_stop_words "" ["the"])
      (pipeDict nltk_stop_words "" ["the"]) 5
      (preprocess nltk_stop_words "")
      ((["the"] : List String).map (preprocess nltk_stop_words))).toOption.getD []
      = ([] : List (List (String × ℚ))) from rfl]
  rw [List.zip_nil_right]
  rfl

theorem innerProd_boost_xy :
    innerProd 2 [[1, 1, 1], [1, 1, 0], [1, 0, 1]] [(1, 1, 1), (2, 1, 1)]
      [(0, 1, 1)] = 2 * (Real.log 2 * Real.log 2) := by
  have h10 : matLookup [[1, 1, 1], [1, 1, 0], [1, 0, 1]] 1 0 = 1 := rfl
  have h20 : matLookup [[1, 1, 1], [1, 1, 0], [1, 0, 1]] 2 0 = 1 := rfl
  unfold innerProd entryWeight
  simp only [List.map, List.sum_cons, List.sum_nil, h10, h20]
  push_cast
  norm_num
  ring

theorem innerProd_boost_xx :
    innerProd 2 [[1, 1, 1], [1, 1, 0], [1, 0, 1]] [(1, 1, 1), (2, 1, 1)]
      [(1, 1, 1), (2, 1, 1)] = 2 * (Real.log 2 * Real.log 2) := by
  have h11 : matLookup [[1, 1, 1], [1, 1, 0], [1, 0, 1]] 1 1 = 1 := rfl
  have h12 : matLookup [[1, 1, 1], [1, 1, 0], [1, 0, 1]] 1 2 = 0 := rfl
  have h21 : matLookup [[1, 1, 1], [1, 1, 0], [1, 0, 1]] 2 1 = 0 := rfl
  have h22 : matLookup [[1, 1, 1], [1, 1, 0], [1, 0, 1]] 2 2 = 1 := rfl
  unfold innerProd entryWeight
  simp only [List.map, List.sum_cons, List.sum_nil, h11, h12, h21, h22]
  push_cast
  norm_num
  ring

theorem innerProd_boost_yy :
    innerProd 2 [[1, 1, 1], [1, 1, 0], [1, 0, 1]] [(0, 1, 1)] [(0, 1, 1)] =
      Real.log 2 * Real.log 2 := by
  have h00 : matLookup [[1, 1, 1], [1, 1, 0], [1, 0, 1]] 0 0 = 1 := rfl
  unfold innerProd entryWeight
  simp only [List.map, List.sum_cons, List.sum_nil, h00]
  push_cast
  norm_num

/-- The soft cosine of the counterexample query and document evaluates to
the square root of 2: the matrix dropped the cross-term between the two
query terms while keeping their full similarity to the document term, so
the Cauchy–Schwarz bound fails. -/
theorem softcossim_boost_value :
    softcossim 2 [[1, 1, 1], [1, 1, 0], [1, 0, 1]] [(1, 1, 1), (2, 1, 1)]
      [(0, 1, 1)] = Real.sqrt 2 := by
  have hL : (0 : ℝ) < Real.log 2 := Real.log_pos one_lt_two
  unfold softcossim
  rw [innerProd_boost_xy, innerProd_boost_xx, innerProd_boost_yy]
  rw [show Real.log 2 * Real.log 2 = Real.log 2 ^ 2 from by ring]
  rw [Real.sqrt_sq hL.le]
  rw [Real.sqrt_mul (by norm_num : (0 : ℝ) ≤ 2), Real.sqrt_sq hL.le]
  rw [if_neg]
  · rw [pow_two]
    field_simp
    nlinarith [Real.sq_sqrt (by norm_num : (0 : ℝ) ≤ 2), Real.sqrt_nonneg 2]
  · push_neg
    constructor
    · positivity
    · positivity

theorem pipeScores_boost :
    pipeScores boostCap nltk_stop_words "fast cheap" ["quick"] =
      [Real.sqrt 2] := by
  unfold pipeScores
  simp only [List.map]
  rw [show preprocess nltk_stop_words "fast cheap" = ["fast", "cheap"] from rfl]
  rw [show preprocess nltk_stop_words "quick" = ["quick"] from rfl]
  rw [show (pipeAll nltk_stop_words "fast cheap" ["quick"]).length = 2 from rfl]
  rw [show pipeMat boostCap nltk_stop_words "fast cheap" ["quick"] =
    [[1, 1, 1], [1, 1, 0], [1, 0, 1]] from by decide]
  rw [show pipeVec nltk_stop_words "fast cheap" ["quick"] ["fast", "cheap"] =
    [(1, 1, 1), (2, 1, 1)] from by decide]
  rw [show pipeVec nltk_stop_words "fast cheap" ["quick"] ["quick"] =
    [(0, 1, 1)] from by decide]
  rw [softcossim_boost_value]

/-- A returned score strictly greater than 1: for the capability in which
`quick` has cosine similarity 1 to both query terms `fast` and `cheap`
while the two query terms are orthogonal, the single document scores the
square root of 2 — refuting the claim that every returned score lies in
`[0, 1]`. -/
theorem C5_counterexample :
    ∃ sc, (similarity_query boostState "fast cheap" ["quick"] false).1 =
        some [(0, sc, none)] ∧ 1 < sc := by
  refine ⟨Real.sqrt 2, ?_, ?_⟩
  · rw [similarity_query_ready_eq boostState rfl]
    show some (rankedResults boostCap nltk_stop_words "fast cheap" ["quick"]
      false) = _
    rw [rankedResults_false_shape, pipeScores_boost]
    rw [argsortDesc_one]
    rfl
  · nlinarith [Real.sq_sqrt (by norm_num : (0 : ℝ) ≤ 2), Real.sqrt_nonneg 2]

theorem softcossim_c3_one :
    softcossim 3 [[1, 0, 0], [0, 1, 0], [0, 0, 1]] [(2, 1, 2)] [(2, 1, 2)] =
      1 := by
  have h22 : matLookup [[1, 0, 0], [0, 1, 0], [0, 0, 1]] 2 2 = 1 := rfl
  have hL : (0 : ℝ) < Real.log ((3 : ℝ) / 2) := Real.log_pos (by norm_num)
  have hip : innerProd 3 [[1, 0, 0], [0, 1, 0], [0, 0, 1]] [(2, 1, 2)]
      [(2, 1, 2)] = Real.log ((3 : ℝ) / 2) * Real.log ((3 : ℝ) / 2) := by
    unfold innerProd entryWeight
    simp only [List.map, List.sum_cons, List.sum_nil, h22]
    push_cast
    norm_num
  unfold softcossim
  rw [hip]
  rw [show Real.log ((3 : ℝ) / 2) * Real.log ((3 : ℝ) / 2) =
    Real.log ((3 : ℝ) / 2) ^ 2 from by ring]
  rw [Real.sqrt_sq hL.le]
  rw [if_neg]
  · rw [pow_two]
    exact div_self (by positivity)
  · push_neg
    constructor
    · positivity
    · positivity

theorem softcossim_c3_zero :
    softcossim 3 [[1, 0, 0], [0, 1, 0], [0, 0, 1]] [(2, 1, 2)]
      [(0, 1, 1), (1, 1, 1)] = 0 := by
  have h20 : matLookup [[1, 0, 0], [0, 1, 0], [0, 0, 1]] 2 0 = 0 := rfl
  have h21 : matLookup [[1, 0, 0], [0, 1, 0], [0, 0, 1]] 2 1 = 0 := rfl
  have hip : innerProd 3 [[1, 0, 0], [0, 1, 0], [0, 0, 1]] [(2, 1, 2)]
      [(0, 1, 1), (1, 1, 1)] = 0 := by
    unfold innerProd entryWeight
    simp only [List.map, List.sum_cons, List.sum_nil, h20, h21]
    push_cast
    norm_num
  unfold softcossim
  rw [hip]
  split
  · rfl
  · exact zero_div _

theorem pipeScores_c3 :
    pipeScores flatCap nltk_stop_words "quick" ["slow green", "quick"] =
      [0, 1] := by
  unfold pipeScores
  simp only [List.map]
  rw [show preprocess nltk_stop_words "quick" = ["quick"] from rfl]
  rw [show preprocess nltk_stop_words "slow green" = ["slow", "green"] from rfl]
  rw [show (pipeAll nltk_stop_words "quick" ["slow green", "quick"]).length = 3
    from rfl]
  rw [show pipeMat flatCap nltk_stop_words "quick" ["slow green", "quick"] =
    [[1, 0, 0], [0, 1, 0], [0, 0, 1]] from by decide]
  rw [show pipeVec nltk_stop_words "quick" ["slow green", "quick"] ["quick"] =
    [(2, 1, 2)] from by decide]
  rw [show pipeVec nltk_stop_words "quick" ["slow green", "quick"]
    ["slow", "green"] = [(0, 1, 1), (1, 1, 1)] from by decide]
  rw [softcossim_c3_zero, softcossim_c3_one]

/-- Evaluation of an `explain=True` call in which ranking reorders the
documents: the tuple carrying index 1 (the document `"quick"`, which
scores 1) is paired with the empty explanation list computed for document
0, and the tuple carrying index 0 (`"slow green"`, scoring 0) is paired
with document 1's explanation `("quick", 1)` — the explanations are
attached positionally, not to the document whose index the tuple holds. -/
theorem C3_misaligned_explanations :
    (similarity_query readyState "quick" ["slow green", "quick"] true).1 =
      some [(1, 1, some []), (0, 0, some [("quick", 1)])] := by
  rw [similarity_query_ready_eq readyState rfl]
  show some (rankedResults flatCap nltk_stop_words "quick"
    ["slow green", "quick"] true) = _
  rw [rankedResults_true_shape]
  rw [show preprocess nltk_stop_words "quick" = ["quick"] from rfl]
  rw [show (["slow green", "quick"] : List String).map
    (preprocess nltk_stop_words) = [["slow", "green"], ["quick"]] from rfl]
  rw [show pipeMat flatCap nltk_stop_words "quick" ["slow green", "quick"] =
    [[1, 0, 0], [0, 1, 0], [0, 0, 1]] from by decide]
  rw [show pipeDict nltk_stop_words "quick" ["slow green", "quick"] =
    ["slow", "green", "quick"] from by decide]
  rw [show (find_similar_terms [[1, 0, 0], [0, 1, 0], [0, 0, 1]]
    ["slow", "green", "quick"] 5 ["quick"]
    [["slow", "green"], ["quick"]]).toOption.getD [] =
    [[], [("quick", 1)]] from rfl]
  rw [pipeScores_c3]
  rw [argsortDesc_pair 0 1 (Or.inl (by norm_num [List.getD]))]
  rfl

theorem matchImgTag_ws (c : Char) (cs : List Char)
    (h : c = ' ' ∨ c = '\t' ∨ c = '\n' ∨ c = '\r') :
    matchImgTag (c :: cs) = none := by
  rcases h with rfl | rfl | rfl | rfl <;> rfl

theorem matchAnyTag_ws (c : Char) (cs : List Char)
    (h : c = ' ' ∨ c = '\t' ∨ c = '\n' ∨ c = '\r') :
    matchAnyTag (c :: cs) = none := by
  rcases h with rfl | rfl | rfl | rfl <;> rfl

theorem matchImgAssist_ws (c : Char) (cs : List Char)
    (h : c = ' ' ∨ c = '\t' ∨ c = '\n' ∨ c = '\r') :
    matchImgAssist (c :: cs) = none := by
  rcases h with rfl | rfl | rfl | rfl <;> rfl

theorem matchUrl_ws (c : Char) (cs : List Char)
    (h : c = ' ' ∨ c = '\t' ∨ c = '\n' ∨ c = '\r') :
    matchUrl (c :: cs) = none := by
  rcases h with rfl | rfl | rfl | rfl <;> rfl

/-- A substitution pass whose matcher never fires on whitespace leaves an
all-whitespace list unchanged. -/
theorem subScan_ws (m : List Char → Option (List Char)) (repl : List Char)
    (hm : ∀ c cs2, (c = ' ' ∨ c = '\t' ∨ c = '\n' ∨ c = '\r') →
      m (c :: cs2) = none) :
    ∀ (fuel : ℕ) (cs : List Char),
      (∀ c ∈ cs, c = ' ' ∨ c = '\t' ∨ c = '\n' ∨ c = '\r') →
      subScan m repl fuel cs = cs := by
  intro fuel
  induction fuel with
  | zero => intro cs _; rfl
  | succ n ih =>
    intro cs h
    cases cs with
    | nil => rfl
    | cons c cs =>
      unfold subScan
      rw [hm c cs (h c (List.mem_cons_self c cs))]
      rw [ih cs (fun x hx => h x (List.mem_cons_of_mem c hx))]

theorem tokenizeAux_ws_step (c : Char) (rest : List Char)
    (h : c = ' ' ∨ c = '\t' ∨ c = '\n' ∨ c = '\r') :
    tokenizeAux (Char.toLower c :: rest) [] = tokenizeAux rest [] := by
  rcases h with rfl | rfl | rfl | rfl <;> rfl

theorem tokenizeAux_map_ws :
    ∀ cs : List Char,
      (∀ c ∈ cs, c = ' ' ∨ c = '\t' ∨ c = '\n' ∨ c = '\r') →
      tokenizeAux (cs.map Char.toLower) [] = [] := by
  intro cs
  induction cs with
  | nil => intro _; rfl
  | cons c cs ih =>
    intro h
    simp only [List.map]
    rw [tokenizeAux_ws_step c _ (h c (List.mem_cons_self c cs))]
    exact ih (fun x hx => h x (List.mem_cons_of_mem c hx))

/-- A whitespace-only input (the empty input included) normalizes to the
empty token sequence: no substitution fires and no token survives. -/
theorem preprocess_whitespace (stopwords : List String) (cs : List Char)
    (h : ∀ c ∈ cs, c = ' ' ∨ c = '\t' ∨ c = '\n' ∨ c = '\r') :
    preprocess stopwords (String.mk cs) = [] := by
  unfold preprocess applySub
  rw [show (String.mk cs).toList = cs from rfl]
  rw [subScan_ws matchImgTag _ matchImgTag_ws _ cs h]
  rw [subScan_ws matchAnyTag _ matchAnyTag_ws _ cs h]
  rw [subScan_ws matchImgAssist _ matchImgAssist_ws _ cs h]
  rw [subScan_ws matchUrl _ matchUrl_ws _ cs h]
  unfold simple_preprocess
  rw [tokenizeAux_map_ws cs h]
  rfl

/-- The behavior of `preprocess`: whitespace-only (or empty) input yields
the empty sequence, and the spec's example input is normalized to
`image_token`, `visit`, `url_token` — markup removed, the URL replaced,
and `now` dropped because it is in the stopword set. -/
theorem C6_preprocess_behavior :
    (∀ (stopwords : List String) (cs : List Char),
        (∀ c ∈ cs, c = ' ' ∨ c = '\t' ∨ c = '\n' ∨ c = '\r') →
        preprocess stopwords (String.mk cs) = []) ∧
      preprocess nltk_stop_words "<img src=x> visit http://example.com now" =
        ["image_token", "visit", "url_token"] :=
  ⟨preprocess_whitespace, rfl⟩

/-- Witness for `C6_preprocess_behavior` at a concrete whitespace string. -/
theorem C6_preprocess_behavior_witness :
    preprocess nltk_stop_words (String.mk [' ', '\t', '\n']) = [] ∧
      preprocess nltk_stop_words "<img src=x> visit http://example.com now" =
        ["image_token", "visit", "url_token"] :=
  ⟨C6_preprocess_behavior.1 nltk_stop_words [' ', '\t', '\n'] (by decide),
    C6_preprocess_behavior.2⟩

/-- The spec's example input does not retain `now` — `now` is in the
hard-coded default stopword list and is dropped — and underscores are kept
inside tokens rather than being split on (they are not alphanumeric), both
refuting the claim as stated. -/
theorem C6_counterexample :
    "now" ∈ nltk_stop_words ∧
      preprocess nltk_stop_words "<img src=x> visit http://example.com now" =
        ["image_token", "visit", "url_token"] ∧
      "now" ∉ preprocess nltk_stop_words
        "<img src=x> visit http://example.com now" ∧
      preprocess nltk_stop_words "a_b" = ["a_b"] :=
  ⟨by decide, rfl, by decide, rfl⟩

theorem insertSortedBy_perm {α : Type} (le : α → α → Bool) (a : α) :
    ∀ l : List α, (insertSortedBy le a l).Perm (a :: l)
  | [] => List.Perm.refl _
  | b :: l => by
    unfold insertSortedBy
    split
    · exact List.Perm.refl _
    · exact ((insertSortedBy_perm le a l).cons b).trans (List.Perm.swap a b l)

theorem sortBy_perm {α : Type} (le : α → α → Bool) :
    ∀ l : List α, (sortBy le l).Perm l
  | [] => List.Perm.refl _
  | a :: l =>
    (insertSortedBy_perm le a (sortBy le l)).trans ((sortBy_perm le l).cons a)

theorem insertSortedBy_pairwise {α : Type} (le : α → α → Bool)
    (htot : ∀ a b, le a b = true ∨ le b a = true)
    (htrans : ∀ a b c, le a b = true → le b c = true → le a c = true)
    (a : α) : ∀ l : List α, l.Pairwise (fun x y => le x y = true) →
      (insertSortedBy le a l).Pairwise (fun x y => le x y = true)
  | [], _ => by simp [insertSortedBy]
  | b :: l, hl => by
    rcases List.pairwise_cons.1 hl with ⟨hb, hl2⟩
    unfold insertSortedBy
    split
    · rename_i hab
      refine List.pairwise_cons.2 ⟨?_, hl⟩
      intro x hx
      rcases List.mem_cons.1 hx with rfl | hx2
      · exact hab
      · exact htrans a b x hab (hb x hx2)
    · rename_i hab
      refine List.pairwise_cons.2
        ⟨?_, insertSortedBy_pairwise le htot htrans a l hl2⟩
      intro x hx
      have hx3 := (insertSortedBy_perm le a l).mem_iff.1 hx
      rcases List.mem_cons.1 hx3 with rfl | hx4
      · rcases htot x b with h | h
        · exact absurd h hab
        · exact h
      · exact hb x hx4

theorem sortBy_pairwise {α : Type} (le : α → α → Bool)
    (htot : ∀ a b, le a b = true ∨ le b a = true)
    (htrans : ∀ a b c, le a b = true → le b c = true → le a c = true) :
    ∀ l : List α, (sortBy le l).Pairwise (fun x y => le x y = true)
  | [] => List.Pairwise.nil
  | a :: l =>
    insertSortedBy_pairwise le htot htrans a _
      (sortBy_pairwise le htot htrans l)

theorem entryLe_total (a b : String × ℚ) :
    entryLe a b = true ∨ entryLe b a = true := by
  unfold entryLe
  rcases le_total b.2 a.2 with h | h
  · exact Or.inl (decide_eq_true h)
  · exact Or.inr (decide_eq_true h)

theorem entryLe_trans (a b c : String × ℚ) (h1 : entryLe a b = true)
    (h2 : entryLe b c = true) : entryLe a c = true := by
  unfold entryLe at h1 h2 ⊢
  rw [decide_eq_true_eq] at h1 h2 ⊢
  exact le_trans h2 h1

/-- Membership in the first-seen deduplication is membership in the
original list. -/
theorem mem_firstSeen_aux (a : String) :
    ∀ (l acc : List String),
      (a ∈ l.foldl (fun acc t => if acc.contains t then acc else acc ++ [t])
          acc ↔ a ∈ acc ∨ a ∈ l)
  | [], acc => by simp
  | t :: l, acc => by
    rw [List.foldl_cons]
    rw [mem_firstSeen_aux a l _]
    by_cases hc : acc.contains t
    · rw [if_pos hc]
      have ht : t ∈ acc := by
        have := hc
        simp at this
        exact this
      constructor
      · rintro (h | h)
        · exact Or.inl h
        · exact Or.inr (List.mem_cons_of_mem t h)
      · rintro (h | h)
        · exact Or.inl h
        · rcases List.mem_cons.1 h with rfl | h2
          · exact Or.inl ht
          · exact Or.inr h2
    · rw [if_neg hc]
      constructor
      · rintro (h | h)
        · rcases List.mem_append.1 h with h2 | h2
          · exact Or.inl h2
          · rcases List.mem_cons.1 h2 with rfl | h3
            · exact Or.inr (List.mem_cons_self _ _)
            · cases h3
        · exact Or.inr (List.mem_cons_of_mem t h)
      · rintro (h | h)
        · exact Or.inl (List.mem_append.2 (Or.inl h))
        · rcases List.mem_cons.1 h with rfl | h2
          · exact Or.inl (List.mem_append.2 (Or.inr (List.mem_cons_self _ _)))
          · exact Or.inr h2

theorem mem_firstSeen (l : List String) (a : String) :
    a ∈ firstSeen l ↔ a ∈ l := by
  unfold firstSeen
  rw [mem_firstSeen_aux a l []]
  simp

theorem collectEntries_cons_none (mat : List (List ℚ)) (dict : List String)
    (idx1 : ℕ) (w : String) (ws : List String)
    (hw : token2id dict w = none) :
    collectEntries mat dict idx1 (w :: ws) = .error w := by
  unfold collectEntries
  rw [hw]

theorem collectEntries_cons_err (mat : List (List ℚ)) (dict : List String)
    (idx1 : ℕ) (w : String) (ws : List String) (idx2 : ℕ) (e : String)
    (hw : token2id dict w = some idx2)
    (hr : collectEntries mat dict idx1 ws = .error e) :
    collectEntries mat dict idx1 (w :: ws) = .error e := by
  unfold collectEntries
  rw [hw, hr]

theorem collectEntries_cons_ok (mat : List (List ℚ)) (dict : List String)
    (idx1 : ℕ) (w : String) (ws : List String) (idx2 : ℕ)
    (rest : List (String × ℚ)) (hw : token2id dict w = some idx2)
    (hr : collectEntries mat dict idx1 ws = .ok rest) :
    collectEntries mat dict idx1 (w :: ws) =
      .ok (keepPositive w (matLookup mat idx1 idx2) rest) := by
  unfold collectEntries
  rw [hw, hr]

/-- The inner word scan fails exactly when some scanned word is missing
from the Term Universe. -/
theorem collectEntries_error_iff (mat : List (List ℚ)) (dict : List String)
    (idx1 : ℕ) :
    ∀ ws : List String,
      ((∃ e, collectEntries mat dict idx1 ws = .error e) ↔
        ∃ w ∈ ws, token2id dict w = none)
  | [] => by simp [collectEntries]
  | w :: ws => by
    cases hw : token2id dict w with
    | none =>
      rw [collectEntries_cons_none mat dict idx1 w ws hw]
      constructor
      · intro _
        exact ⟨w, List.mem_cons_self w ws, hw⟩
      · intro _
        exact ⟨w, rfl⟩
    | some idx2 =>
      cases hr : collectEntries mat dict idx1 ws with
      | error e =>
        rw [collectEntries_cons_err mat dict idx1 w ws idx2 e hw hr]
        constructor
        · intro _
          rcases (collectEntries_error_iff mat dict idx1 ws).1 ⟨e, hr⟩ with
            ⟨w2, hmem, hw2⟩
          exact ⟨w2, List.mem_cons_of_mem w hmem, hw2⟩
        · intro _
          exact ⟨e, rfl⟩
      | ok rest =>
        rw [collectEntries_cons_ok mat dict idx1 w ws idx2 rest hw hr]
        constructor
        · rintro ⟨e, he⟩
          cases he
        · rintro ⟨w2, hmem, hw2⟩
          rcases List.mem_cons.1 hmem with rfl | h2
          · rw [hw] at hw2
            cases hw2
          · rcases (collectEntries_error_iff mat dict idx1 ws).2
              ⟨w2, h2, hw2⟩ with ⟨e, he⟩
            rw [hr] at he
            cases he

theorem keepPositive_mem (w : String) (sc : ℚ) (rest : List (String × ℚ))
    (p : String × ℚ) (hp : p ∈ keepPositive w sc rest) :
    p = (w, sc) ∧ 0 < sc ∨ p ∈ rest := by
  unfold keepPositive at hp
  by_cases h : 0 < sc
  · rw [if_pos h] at hp
    rcases List.mem_cons.1 hp with rfl | h2
    · exact Or.inl ⟨rfl, h⟩
    · exact Or.inr h2
  · rw [if_neg h] at hp
    exact Or.inr hp

/-- Every entry produced by the inner word scan has a strictly positive
score read from the matrix at the ids of the query term and the word. -/
theorem collectEntries_ok_mem (mat : List (List ℚ)) (dict : List String)
    (idx1 : ℕ) :
    ∀ (ws : List String) (l : List (String × ℚ)),
      collectEntries mat dict idx1 ws = .ok l →
      ∀ p ∈ l, 0 < p.2 ∧ p.1 ∈ ws ∧
        ∃ i2, token2id dict p.1 = some i2 ∧ p.2 = matLookup mat idx1 i2
  | [], l, h => by
    cases h
    intro p hp
    cases hp
  | w :: ws, l, h => by
    cases hw : token2id dict w with
    | none =>
      rw [collectEntries_cons_none mat dict idx1 w ws hw] at h
      cases h
    | some idx2 =>
      cases hr : collectEntries mat dict idx1 ws with
      | error e =>
        rw [collectEntries_cons_err mat dict idx1 w ws idx2 e hw hr] at h
        cases h
      | ok rest =>
        rw [collectEntries_cons_ok mat dict idx1 w ws idx2 rest hw hr] at h
        cases h
        intro p hp
        rcases keepPositive_mem w _ rest p hp with ⟨rfl, hpos⟩ | h2
        · exact ⟨hpos, List.mem_cons_self _ _, idx2, hw, rfl⟩
        · rcases collectEntries_ok_mem mat dict idx1 ws rest hr p h2 with
            ⟨h1, h2b, h3⟩
          exact ⟨h1, List.mem_cons_of_mem w h2b, h3⟩

theorem similarForDoc_eq_err (mat : List (List ℚ)) (dict : List String)
    (idx1 term_limit : ℕ) (d : List String) (e : String)
    (hr : collectEntries mat dict idx1 (firstSeen d) = .error e) :
    similarForDoc mat dict idx1 term_limit d = .error e := by
  unfold similarForDoc
  rw [hr]

theorem similarForDoc_eq_ok (mat : List (List ℚ)) (dict : List String)
    (idx1 term_limit : ℕ) (d : List String) (l0 : List (String × ℚ))
    (hr : collectEntries mat dict idx1 (firstSeen d) = .ok l0) :
    similarForDoc mat dict idx1 term_limit d =
      .ok ((sortBy entryLe l0).take term_limit) := by
  unfold similarForDoc
  rw [hr]

/-- The per-document extraction fails exactly when some word of the
document is missing from the Term Universe. -/
theorem similarForDoc_error_iff (mat : List (List ℚ)) (dict : List String)
    (idx1 term_limit : ℕ) (d : List String) :
    (∃ e, similarForDoc mat dict idx1 term_limit d = .error e) ↔
      ∃ w ∈ d, token2id dict w = none := by
  cases hr : collectEntries mat dict idx1 (firstSeen d) with
  | error e =>
    rw [similarForDoc_eq_err mat dict idx1 term_limit d e hr]
    constructor
    · intro _
      rcases (collectEntries_error_iff mat dict idx1 (firstSeen d)).1
        ⟨e, hr⟩ with ⟨w, hmem, hw⟩
      exact ⟨w, (mem_firstSeen d w).1 hmem, hw⟩
    · intro _
      exact ⟨e, rfl⟩
  | ok l0 =>
    rw [similarForDoc_eq_ok mat dict idx1 term_limit d l0 hr]
    constructor
    · rintro ⟨e, he⟩
      cases he
    · rintro ⟨w, hmem, hw⟩
      rcases (collectEntries_error_iff mat dict idx1 (firstSeen d)).2
        ⟨w, (mem_firstSeen d w).2 hmem, hw⟩ with ⟨e, he⟩
      rw [hr] at he
      cases he

/-- Shape of a successful per-document extraction: at most `term_limit`
entries, sorted descending by score, every entry a strictly positive
matrix lookup for a distinct word of the document. -/
theorem similarForDoc_ok_props (mat : List (List ℚ)) (dict : List String)
    (idx1 term_limit : ℕ) (d : List String) (l : List (String × ℚ))
    (h : similarForDoc mat dict idx1 term_limit d = .ok l) :
    l.length ≤ term_limit ∧ l.Pairwise (fun a b => b.2 ≤ a.2) ∧
      ∀ p ∈ l, 0 < p.2 ∧ p.1 ∈ d ∧
        ∃ i2, token2id dict p.1 = some i2 ∧ p.2 = matLookup mat idx1 i2 := by
  cases hr : collectEntries mat dict idx1 (firstSeen d) with
  | error e =>
    rw [similarForDoc_eq_err mat dict idx1 term_limit d e hr] at h
    cases h
  | ok l0 =>
    rw [similarForDoc_eq_ok mat dict idx1 term_limit d l0 hr] at h
    cases h
    refine ⟨?_, ?_, ?_⟩
    · rw [List.length_take]
      exact min_le_left _ _
    · have hs := sortBy_pairwise entryLe entryLe_total entryLe_trans l0
      have ht := List.Pairwise.sublist (List.take_sublist term_limit _) hs
      refine ht.imp ?_
      intro a b hab
      unfold entryLe at hab
      rwa [decide_eq_true_eq] at hab
    · intro p hp
      have hp2 : p ∈ sortBy entryLe l0 := List.mem_of_mem_take hp
      have hp3 : p ∈ l0 := (sortBy_perm entryLe l0).mem_iff.1 hp2
      rcases collectEntries_ok_mem mat dict idx1 (firstSeen d) l0 hr p hp3
        with ⟨h1, h2, h3⟩
      exact ⟨h1, (mem_firstSeen d p.1).1 h2, h3⟩

theorem similarForDocs_cons_err (mat : List (List ℚ)) (dict : List String)
    (idx1 term_limit : ℕ) (d : List String) (ds : List (List String))
    (e : String) (hd : similarForDoc mat dict idx1 term_limit d = .error e) :
    similarForDocs mat dict idx1 term_limit (d :: ds) = .error e := by
  unfold similarForDocs
  rw [hd]

theorem similarForDocs_cons_ok_err (mat : List (List ℚ))
    (dict : List String) (idx1 term_limit : ℕ) (d : List String)
    (ds : List (List String)) (l : List (String × ℚ)) (e : String)
    (hd : similarForDoc mat dict idx1 term_limit d = .ok l)
    (hr : similarForDocs mat dict idx1 term_limit ds = .error e) :
    similarForDocs mat dict idx1 term_limit (d :: ds) = .error e := by
  unfold similarForDocs
  rw [hd, hr]

theorem similarForDocs_cons_ok_ok (mat : List (List ℚ))
    (dict : List String) (idx1 term_limit : ℕ) (d : List String)
    (ds : List (List String)) (l : List (String × ℚ))
    (rest : List (List (String × ℚ)))
    (hd : similarForDoc mat dict idx1 term_limit d = .ok l)
    (hr : similarForDocs mat dict idx1 term_limit ds = .ok rest) :
    similarForDocs mat dict idx1 term_limit (d :: ds) = .ok (l :: rest) := by
  unfold similarForDocs
  rw [hd, hr]

/-- The middle loop fails exactly when some document contains a word
missing from the Term Universe. -/
theorem similarForDocs_error_iff (mat : List (List ℚ)) (dict : List String)
    (idx1 term_limit : ℕ) :
    ∀ ds : List (List String),
      ((∃ e, similarForDocs mat dict idx1 term_limit ds = .error e) ↔
        ∃ d ∈ ds, ∃ w ∈ d, token2id dict w = none)
  | [] => by simp [similarForDocs]
  | d :: ds => by
    cases hd : similarForDoc mat dict idx1 term_limit d with
    | error e =>
      rw [similarForDocs_cons_err mat dict idx1 term_limit d ds e hd]
      constructor
      · intro _
        rcases (similarForDoc_error_iff mat dict idx1 term_limit d).1
          ⟨e, hd⟩ with ⟨w, hw1, hw2⟩
        exact ⟨d, List.mem_cons_self d ds, w, hw1, hw2⟩
      · intro _
        exact ⟨e, rfl⟩
    | ok l =>
      cases hr : similarForDocs mat dict idx1 term_limit ds with
      | error e =>
        rw [similarForDocs_cons_ok_err mat dict idx1 term_limit d ds l e hd
          hr]
        constructor
        · intro _
          rcases (similarForDocs_error_iff mat dict idx1 term_limit ds).1
            ⟨e, hr⟩ with ⟨d2, hd2, hw⟩
          exact ⟨d2, List.mem_cons_of_mem d hd2, hw⟩
        · intro _
          exact ⟨e, rfl⟩
      | ok rest =>
        rw [similarForDocs_cons_ok_ok mat dict idx1 term_limit d ds l rest
          hd hr]
        constructor
        · rintro ⟨e, he⟩
          cases he
        · rintro ⟨d2, hd2, w, hw1, hw2⟩
          rcases List.mem_cons.1 hd2 with rfl | h2
          · rcases (similarForDoc_error_iff mat dict idx1 term_limit d2).2
              ⟨w, hw1, hw2⟩ with ⟨e, he⟩
            rw [hd] at he
            cases he
          · rcases (similarForDocs_error_iff mat dict idx1 term_limit ds).2
              ⟨d2, h2, w, hw1, hw2⟩ with ⟨e, he⟩
            rw [hr] at he
            cases he

/-- A successful middle loop returns one list per document, each produced
by the per-document extraction from some document of the corpus. -/
theorem similarForDocs_ok_props (mat : List (List ℚ)) (dict : List String)
    (idx1 term_limit : ℕ) :
    ∀ (ds : List (List String)) (ll : List (List (String × ℚ))),
      similarForDocs mat dict idx1 term_limit ds = .ok ll →
      ll.length = ds.length ∧
        ∀ l ∈ ll, ∃ d ∈ ds,
          similarForDoc mat dict idx1 term_limit d = .ok l
  | [], ll, h => by
    cases h
    refine ⟨rfl, ?_⟩
    intro l hl
    cases hl
  | d :: ds, ll, h => by
    cases hd : similarForDoc mat dict idx1 term_limit d with
    | error e =>
      rw [similarForDocs_cons_err mat dict idx1 term_limit d ds e hd] at h
      cases h
    | ok l =>
      cases hr : similarForDocs mat dict idx1 term_limit ds with
      | error e =>
        rw [similarForDocs_cons_ok_err mat dict idx1 term_limit d ds l e hd
          hr] at h
        cases h
      | ok rest =>
        rw [similarForDocs_cons_ok_ok mat dict idx1 term_limit d ds l rest
          hd hr] at h
        cases h
        rcases similarForDocs_ok_props mat dict idx1 term_limit ds rest hr
          with ⟨hlen, hmem⟩
        refine ⟨by simp [hlen], ?_⟩
        intro l2 hl2
        rcases List.mem_cons.1 hl2 with rfl | h2
        · exact ⟨d, List.mem_cons_self d ds, hd⟩
        · rcases hmem l2 h2 with ⟨d2, hd2, he⟩
          exact ⟨d2, List.mem_cons_of_mem d hd2, he⟩

theorem find_similar_terms_cons_none (mat : List (List ℚ))
    (dict : List String) (term_limit : ℕ) (t : String) (ts : List String)
    (corpus : List (List String)) (ht : token2id dict t = none) :
    find_similar_terms mat dict term_limit (t :: ts) corpus = .error t := by
  unfold find_similar_terms
  rw [ht]

theorem find_similar_terms_cons_err1 (mat : List (List ℚ))
    (dict : List String) (term_limit : ℕ) (t : String) (ts : List String)
    (corpus : List (List String)) (idx1 : ℕ) (e : String)
    (ht : token2id dict t = some idx1)
    (hd : similarForDocs mat dict idx1 term_limit corpus = .error e) :
    find_similar_terms mat dict term_limit (t :: ts) corpus = .error e := by
  unfold find_similar_terms
  simp only [ht, hd]

theorem find_similar_terms_cons_err2 (mat : List (List ℚ))
    (dict : List String) (term_limit : ℕ) (t : String) (ts : List String)
    (corpus : List (List String)) (idx1 : ℕ)
    (rows : List (List (String × ℚ))) (e : String)
    (ht : token2id dict t = some idx1)
    (hd : similarForDocs mat dict idx1 term_limit corpus = .ok rows)
    (hr : find_similar_terms mat dict term_limit ts corpus = .error e) :
    find_similar_terms mat dict term_limit (t :: ts) corpus = .error e := by
  unfold find_similar_terms
  simp only [ht, hd, hr]

theorem find_similar_terms_cons_ok (mat : List (List ℚ))
    (dict : List String) (term_limit : ℕ) (t : String) (ts : List String)
    (corpus : List (List String)) (idx1 : ℕ)
    (rows rest : List (List (String × ℚ)))
    (ht : token2id dict t = some idx1)
    (hd : similarForDocs mat dict idx1 term_limit corpus = .ok rows)
    (hr : find_similar_terms mat dict term_limit ts corpus = .ok rest) :
    find_similar_terms mat dict term_limit (t :: ts) corpus =
      .ok (rows ++ rest) := by
  unfold find_similar_terms
  simp only [ht, hd, hr]

/-- The contract of `_find_similar_terms`: it fails with the unknown-term
error exactly when some query term is not in the Term Universe, or the
query is nonempty and some document word is not in the Term Universe
(with an empty query the document words are never scanned); on success it
returns one list per `(query term, document)` pair, each at most
`term_limit` long, sorted descending by score, holding only strictly
positive matrix lookups between a query term id and the id of a distinct
word of some document. -/
theorem find_similar_terms_contract (mat : List (List ℚ))
    (dict : List String) (term_limit : ℕ) :
    ∀ (query : List String) (corpus : List (List String)),
      ((∃ e, find_similar_terms mat dict term_limit query corpus = .error e) ↔
        ((∃ t ∈ query, token2id dict t = none) ∨
          (query ≠ [] ∧ ∃ d ∈ corpus, ∃ w ∈ d, token2id dict w = none))) ∧
      (∀ ll, find_similar_terms mat dict term_limit query corpus = .ok ll →
        ll.length = query.length * corpus.length ∧
          ∀ l ∈ ll, l.length ≤ term_limit ∧
            l.Pairwise (fun a b => b.2 ≤ a.2) ∧
            ∀ p ∈ l, 0 < p.2 ∧
              ∃ t ∈ query, ∃ i1 i2, token2id dict t = some i1 ∧
                token2id dict p.1 = some i2 ∧ p.2 = matLookup mat i1 i2 ∧
                ∃ d ∈ corpus, p.1 ∈ d)
  | [], corpus => by
    refine ⟨by simp [find_similar_terms], ?_⟩
    intro ll h
    cases h
    refine ⟨by simp, ?_⟩
    intro l hl
    cases hl
  | t :: ts, corpus => by
    have hrec := find_similar_terms_contract mat dict term_limit ts corpus
    cases ht : token2id dict t with
    | none =>
      rw [find_similar_terms_cons_none mat dict term_limit t ts corpus ht]
      refine ⟨?_, ?_⟩
      · constructor
        · intro _
          exact Or.inl ⟨t, List.mem_cons_self t ts, ht⟩
        · intro _
          exact ⟨t, rfl⟩
      · intro ll h
        cases h
    | some idx1 =>
      cases hd : similarForDocs mat dict idx1 term_limit corpus with
      | error e =>
        rw [find_similar_terms_cons_err1 mat dict term_limit t ts corpus
          idx1 e ht hd]
        refine ⟨?_, ?_⟩
        · constructor
          · intro _
            rcases (similarForDocs_error_iff mat dict idx1 term_limit
              corpus).1 ⟨e, hd⟩ with ⟨d, hd1, hw⟩
            exact Or.inr ⟨List.cons_ne_nil t ts, d, hd1, hw⟩
          · intro _
            exact ⟨e, rfl⟩
        · intro ll h
          cases h
      | ok rows =>
        cases hr : find_similar_terms mat dict term_limit ts corpus with
        | error e =>
          rw [find_similar_terms_cons_err2 mat dict term_limit t ts corpus
            idx1 rows e ht hd hr]
          refine ⟨?_, ?_⟩
          · constructor
            · intro _
              rcases hrec.1.1 ⟨e, hr⟩ with h2 | ⟨hne, h2⟩
              · rcases h2 with ⟨t2, ht2, hw⟩
                exact Or.inl ⟨t2, List.mem_cons_of_mem t ht2, hw⟩
              · exact Or.inr ⟨List.cons_ne_nil t ts, h2⟩
            · intro _
              exact ⟨e, rfl⟩
          · intro ll h
            cases h
        | ok rest =>
          rw [find_similar_terms_cons_ok mat dict term_limit t ts corpus
            idx1 rows rest ht hd hr]
          refine ⟨?_, ?_⟩
          · constructor
            · rintro ⟨e, he⟩
              cases he
            · rintro (⟨t2, ht2, hw⟩ | ⟨-, d, hd2, w, hw1, hw2⟩)
              · rcases List.mem_cons.1 ht2 with rfl | h2
                · rw [ht] at hw
                  cases hw
                · rcases hrec.1.2 (Or.inl ⟨t2, h2, hw⟩) with ⟨e, he⟩
                  rw [hr] at he
                  cases he
              · rcases (similarForDocs_error_iff mat dict idx1 term_limit
                  corpus).2 ⟨d, hd2, w, hw1, hw2⟩ with ⟨e, he⟩
                rw [hd] at he
                cases he
          · intro ll h
            cases h
            rcases similarForDocs_ok_props mat dict idx1 term_limit corpus
              rows hd with ⟨hlen1, hmem1⟩
            rcases hrec.2 rest hr with ⟨hlen2, hmem2⟩
            refine ⟨?_, ?_⟩
            · rw [List.length_append, hlen1, hlen2, List.length_cons]
              ring
            · intro l hl
              rcases List.mem_append.1 hl with h2 | h2
              · rcases hmem1 l h2 with ⟨d, hdm, he⟩
                rcases similarForDoc_ok_props mat dict idx1 term_limit d l
                  he with ⟨p1, p2, p3⟩
                refine ⟨p1, p2, ?_⟩
                intro p hp
                rcases p3 p hp with ⟨q1, q2, i2, q3, q4⟩
                exact ⟨q1, t, List.mem_cons_self t ts, idx1, i2, ht, q3, q4,
                  d, hdm, q2⟩
              · rcases hmem2 l h2 with ⟨p1, p2, p3⟩
                refine ⟨p1, p2, ?_⟩
                intro p hp
                rcases p3 p hp with ⟨q1, t2, ht2, i1, i2, q2, q3, q4, d,
                  hdm, q5⟩
                exact ⟨q1, t2, List.mem_cons_of_mem t ht2, i1, i2, q2, q3,
                  q4, d, hdm, q5⟩

/-- With an empty query and a document containing a word that was never
registered in the Term Universe, `_find_similar_terms` succeeds with the
empty result instead of failing — the unknown document word is never
looked up, refuting the "exactly when" form of the claim. -/
theorem C9_counterexample :
    find_similar_terms [[1]] ["a"] 5 [] [["zzz"]] = .ok [] ∧
      token2id ["a"] "zzz" = none :=
  ⟨rfl, rfl⟩

/-- Witness for `similarity_query_second_call` at a concrete ready
instance and inputs. -/
theorem similarity_query_second_call_witness :
    similarity_query
        (similarity_query readyState "speedy car" ["a fast car"] false).2
        "speedy car" ["a fast car"] false =
      similarity_query readyState "speedy car" ["a fast car"] false :=
  similarity_query_second_call readyState "speedy car" ["a fast car"] false

/-- Witness for `find_similar_terms_contract` at a concrete instance. -/
theorem find_similar_terms_contract_witness :
    find_similar_terms [[1]] ["a"] 5 ["a"] [["a"]] = .ok [[("a", 1)]] ∧
      ([("a", (1 : ℚ))] : List (String × ℚ)).length ≤ 5 :=
  ⟨rfl,
    (((find_similar_terms_contract [[1]] ["a"] 5 ["a"] [["a"]]).2
      [[("a", 1)]] rfl).2 [("a", 1)] (by simp)).1⟩

end DocSim
